import Mathlib

/-!
Verification development for a toy compiler (lexer → parser → LLVM-style
code generator).  The embedding follows the Python sources:

* `toy_ast.py`  → the `Node` inductive,
* `lexer.py`    → `Lexer.*`,
* `parser.py`   → `ToyParser.*` (a fuel-indexed task interpreter whose task
  constructors correspond one-to-one to the parser's methods),
* `codegen.py`  → `CodeGen.*` (a fuel-indexed task interpreter for
  `generate_code`, plus `create_ir`).

The program builds IR through the external `llvmlite.ir` library; the parts
of that library the program touches are modelled here from llvmlite's
documented and stable behaviour:
* `Module.get_global(name)` is `self.globals[name]` and raises `KeyError`
  when the name is absent (it never returns `None`);
* `Module.add_global` asserts that the global's name is not already taken;
* `Block.is_terminated` holds iff the block's **last** instruction is a
  terminator (`ret` / `br` / conditional `br`);
* `IRBuilder` keeps an insertion anchor (an index into the block's
  instruction list); `IRBuilder(block)` anchors at the end,
  `position_at_start` anchors at index 0, and every emitted instruction is
  inserted at the anchor, which is then advanced — an anchor held by one
  builder is *not* adjusted when another builder inserts into the same
  block;
* emitting a terminator asserts that the block is not already terminated;
* `builder.ret(None)` produces a `ret void`.

Numeric values are modelled by `FVal`: exact rationals plus a NaN element.
This is faithful for everything the development relies on (ordered
comparisons, which are false on NaN, and the `uitofp` conversion of an
`i1`); IEEE rounding, infinities and signed zero play no role in any
statement proved below.
-/

namespace ToyLang

/-- Numeric domain: exact rationals plus NaN (see the header comment). -/
inductive FVal
  | num (q : ℚ)
  | nan
deriving DecidableEq

/-- AST node variants, after `toy_ast.py` (the unused `return_stmt` field of
`FunctionDef` is omitted: nothing in the program reads or writes it). -/
inductive Node
  | Number (value : ℚ)
  | BinaryOp (left : Node) (operator : String) (right : Node)
  | Variable (name : String)
  | Assignment (name : String) (value : Node)
  | FunctionCall (name : String) (arguments : List Node)
  | FunctionDef (name : String) (args : List String) (body : List Node)
  | If (condition : Node) (then_body : List Node) (else_body : Option (List Node))
  | While (condition : Node) (body : List Node)
  | Return (value : Node)

/-! ## Lexer (`lexer.py`) -/

inductive TokenType
  | NUMBER
  | IDENTIFIER
  | OPERATOR
  | KEYWORD
  | LPAREN
  | RPAREN
  | LBRACE
  | RBRACE
  | SEMICOLON
  | COMMA
  | EOF
deriving DecidableEq

structure Token where
  type : TokenType
  value : String
  line : Nat
  column : Nat
deriving DecidableEq

namespace Lexer

/-- Lexer state: `current_char` is derived as `text[pos]`, exactly the
invariant `lexer.py` maintains between `__init__` and `advance`. -/
structure LexSt where
  text : List Char
  pos : Nat
  line : Nat
  column : Nat
deriving DecidableEq

def LexSt.init (s : String) : LexSt := ⟨s.data, 0, 1, 1⟩

def LexSt.current_char (σ : LexSt) : Option Char := σ.text.get? σ.pos

/-- Python `str.isspace` restricted to ASCII (all source inputs considered
here are ASCII). -/
def pyIsSpace (c : Char) : Bool :=
  c == ' ' || c == '\t' || c == '\n' || c == '\r' || c == '\x0b' || c == '\x0c'

/-- `Lexer.advance` (lexer.py:36-46). -/
def LexSt.advance (σ : LexSt) : LexSt :=
  let p := σ.pos + 1
  match σ.text.get? p with
  | none => { σ with pos := p }
  | some c =>
    if c == '\n' then { σ with pos := p, line := σ.line + 1, column := 1 }
    else { σ with pos := p, column := σ.column + 1 }

/-- `Lexer.skip_whitespace` (lexer.py:48-50); the fuel only bounds the loop
and any value `≥ text.length + 1` yields the loop's actual result. -/
def skip_whitespace : Nat → LexSt → LexSt
  | 0, σ => σ
  | fuel+1, σ =>
    match σ.current_char with
    | some c => if pyIsSpace c then skip_whitespace fuel σ.advance else σ
    | none => σ

def numberGo : Nat → LexSt → String → (String × LexSt)
  | 0, σ, acc => (acc, σ)
  | fuel+1, σ, acc =>
    match σ.current_char with
    | some c =>
      if c.isDigit || c == '.' then numberGo fuel σ.advance (acc.push c)
      else (acc, σ)
    | none => (acc, σ)

/-- `Lexer.number` (lexer.py:52-60): consumes digits and dots; the token's
line is read after the loop, the column before it, as in the source. -/
def number (σ : LexSt) : Token × LexSt :=
  let token_column := σ.column
  let (result, σ') := numberGo (σ.text.length + 1) σ ""
  (⟨TokenType.NUMBER, result, σ'.line, token_column⟩, σ')

def keywords : List String := ["def", "return", "if", "else", "while"]

def identifierGo : Nat → LexSt → String → (String × LexSt)
  | 0, σ, acc => (acc, σ)
  | fuel+1, σ, acc =>
    match σ.current_char with
    | some c =>
      if c.isAlphanum || c == '_' then identifierGo fuel σ.advance (acc.push c)
      else (acc, σ)
    | none => (acc, σ)

/-- `Lexer.identifier` (lexer.py:62-72). -/
def identifier (σ : LexSt) : Token × LexSt :=
  let token_column := σ.column
  let (result, σ') := identifierGo (σ.text.length + 1) σ ""
  let tt := if keywords.contains result then TokenType.KEYWORD else TokenType.IDENTIFIER
  (⟨tt, result, σ'.line, token_column⟩, σ')

inductive LexErr
  | invalidChar (line column : Nat)
  | fuelOut
deriving DecidableEq

/-- Operator characters (lexer.py:86): note that each operator token carries
exactly one character — there is no two-character lookahead. -/
def opChars : List Char := ['+', '-', '*', '/', '<', '>', '=']

/-- `Lexer.get_next_token` (lexer.py:74-123), branch for branch. -/
def get_next_token : Nat → LexSt → Except LexErr (Token × LexSt)
  | 0, _ => .error .fuelOut
  | fuel+1, σ =>
    match σ.current_char with
    | none => .ok (⟨TokenType.EOF, "", σ.line, σ.column⟩, σ)
    | some c =>
      if pyIsSpace c then get_next_token fuel (skip_whitespace (σ.text.length + 1) σ)
      else if c.isDigit then .ok (number σ)
      else if c.isAlpha || c == '_' then .ok (identifier σ)
      else if opChars.contains c then
        .ok (⟨TokenType.OPERATOR, String.singleton c, σ.line, σ.column⟩, σ.advance)
      else if c == '(' then .ok (⟨TokenType.LPAREN, "(", σ.line, σ.column⟩, σ.advance)
      else if c == ')' then .ok (⟨TokenType.RPAREN, ")", σ.line, σ.column⟩, σ.advance)
      else if c == '{' then .ok (⟨TokenType.LBRACE, "\x7b", σ.line, σ.column⟩, σ.advance)
      else if c == '}' then .ok (⟨TokenType.RBRACE, "\x7d", σ.line, σ.column⟩, σ.advance)
      else if c == ';' then .ok (⟨TokenType.SEMICOLON, ";", σ.line, σ.column⟩, σ.advance)
      else if c == ',' then .ok (⟨TokenType.COMMA, ",", σ.line, σ.column⟩, σ.advance)
      else .error (.invalidChar σ.line σ.column)

def tokenizeGo : Nat → LexSt → Except LexErr (List Token)
  | 0, _ => .error .fuelOut
  | fuel+1, σ => do
    let (t, σ') ← get_next_token (σ.text.length + 2) σ
    if t.type == TokenType.EOF then .ok [t]
    else do
      let rest ← tokenizeGo fuel σ'
      .ok (t :: rest)

/-- `Lexer.tokenize` (lexer.py:125-132).  The fuel `length + 2` exceeds the
maximal possible number of tokens, so the loop always runs to completion. -/
def tokenize (s : String) : Except LexErr (List Token) :=
  tokenizeGo (s.length + 2) (LexSt.init s)

end Lexer

/-! ## Parser (`parser.py`)

Modelled as a single fuel-indexed interpreter `pRun` over a task type whose
constructors correspond one-to-one to the parser's methods (loops inside a
method become their own accumulating task).  Fuel is decremented at every
call; any sufficiently large fuel yields the parser's actual result, and the
concrete theorems below evaluate `parseProgram`, which supplies one. -/

namespace ToyParser

structure PSt where
  tokens : List Token
  pos : Nat
deriving DecidableEq

inductive PErr
  | invalid (line column : Nat)
  | atEnd
  | indexErr
  | valueError
  | internal
  | fuelOut
deriving DecidableEq

def PSt.current (σ : PSt) : Option Token := σ.tokens.get? σ.pos

/-- `Parser.error` (parser.py:14-17): position from the current token when
there is one. -/
def perr (σ : PSt) : PErr :=
  match σ.current with
  | some t => .invalid t.line t.column
  | none => .atEnd

/-- `Parser.eat` (parser.py:19-24). -/
def eat (σ : PSt) (tt : TokenType) : Except PErr PSt :=
  match σ.current with
  | some t => if t.type == tt then .ok { σ with pos := σ.pos + 1 } else .error (perr σ)
  | none => .error (perr σ)

/-- Python `float(s)` on the digit/dot strings the lexer's `number` can
produce, as an exact decimal rational; malformed strings (such as several
dots) are a `ValueError`, that is, `none`. -/
def digitsVal (l : List Char) : Nat :=
  l.foldl (fun a c => a * 10 + (c.toNat - 48)) 0

def pyFloat (s : String) : Option ℚ :=
  let cs := s.data
  if cs ≠ [] ∧ cs.all (fun c => c.isDigit || c == '.')
      ∧ (cs.filter (fun c => c == '.')).length ≤ 1 ∧ cs.any (fun c => c.isDigit) then
    let ip := cs.takeWhile (fun c => c ≠ '.')
    let fp := (cs.dropWhile (fun c => c ≠ '.')).drop 1
    some ((digitsVal ip : ℚ) + (digitsVal fp : ℚ) / ((10 : ℚ) ^ fp.length))
  else none

/-- Tasks: `parseAll` is `parse`'s top-level loop, `fdefArgs` the parameter
loop of `function_definition`, `stmts` the shared statements-until-`}` loop,
`exprLoop`/`termLoop` the operator loops of `expr`/`term`, and
`callArgsLoop` the comma loop inside `factor`'s call case. -/
inductive PTask
  | parseAll (acc : List Node)
  | function_definition
  | fdefArgs (acc : List String)
  | stmts (acc : List Node)
  | statement
  | return_statement
  | if_statement
  | while_statement
  | assignment
  | expr
  | exprLoop (n : Node)
  | term
  | termLoop (n : Node)
  | factor
  | callArgsLoop (acc : List Node)

/-- Result record: each task fills the field its source method returns. -/
structure PRes where
  node : Option Node := none
  nodes : List Node := []
  names : List String := []

def pRun : Nat → PSt → PTask → Except PErr (PRes × PSt)
  | 0, _, _ => .error .fuelOut
  | fuel+1, σ, task =>
    match task with
    | .parseAll acc =>
      match σ.current with
      | some t =>
        if t.type == TokenType.EOF then .ok ({ nodes := acc }, σ)
        else if t.type == TokenType.KEYWORD && t.value == "def" then do
          let (r, σ₁) ← pRun fuel σ .function_definition
          match r.node with
          | some n => pRun fuel σ₁ (.parseAll (acc ++ [n]))
          | none => .error .internal
        else do
          let (r, σ₁) ← pRun fuel σ .statement
          match r.node with
          | some n => pRun fuel σ₁ (.parseAll (acc ++ [n]))
          | none => .error .internal
      | none => .ok ({ nodes := acc }, σ)
    | .function_definition => do
      let σ₁ ← eat σ TokenType.KEYWORD
      match σ₁.current with
      | some t =>
        if t.type == TokenType.IDENTIFIER then do
          let σ₂ ← eat σ₁ TokenType.IDENTIFIER
          let σ₃ ← eat σ₂ TokenType.LPAREN
          let (ra, σ₄) ← pRun fuel σ₃ (.fdefArgs [])
          let σ₅ ← eat σ₄ TokenType.RPAREN
          let σ₆ ← eat σ₅ TokenType.LBRACE
          let (rb, σ₇) ← pRun fuel σ₆ (.stmts [])
          let σ₈ ← eat σ₇ TokenType.RBRACE
          .ok ({ node := some (.FunctionDef t.value ra.names rb.nodes) }, σ₈)
        else .error (perr σ₁)
      | none => .error .atEnd
    | .fdefArgs acc =>
      match σ.current with
      | some t =>
        if t.type == TokenType.IDENTIFIER then do
          let σ₁ ← eat σ TokenType.IDENTIFIER
          match σ₁.current with
          | some t₂ =>
            if t₂.type == TokenType.COMMA then do
              let σ₂ ← eat σ₁ TokenType.COMMA
              pRun fuel σ₂ (.fdefArgs (acc ++ [t.value]))
            else pRun fuel σ₁ (.fdefArgs (acc ++ [t.value]))
          | none => .error .atEnd
        else .ok ({ names := acc }, σ)
      | none => .ok ({ names := acc }, σ)
    | .stmts acc =>
      match σ.current with
      | some t =>
        if t.type == TokenType.RBRACE then .ok ({ nodes := acc }, σ)
        else do
          let (r, σ₁) ← pRun fuel σ .statement
          match r.node with
          | some n => pRun fuel σ₁ (.stmts (acc ++ [n]))
          | none => .error .internal
      | none => .ok ({ nodes := acc }, σ)
    | .statement =>
      match σ.current with
      | none => .error .atEnd
      | some t =>
        if t.type == TokenType.KEYWORD && t.value == "return" then pRun fuel σ .return_statement
        else if t.type == TokenType.KEYWORD && t.value == "if" then pRun fuel σ .if_statement
        else if t.type == TokenType.KEYWORD && t.value == "while" then pRun fuel σ .while_statement
        else if t.type == TokenType.IDENTIFIER then
          match σ.tokens.get? (σ.pos + 1) with
          | none => .error .indexErr
          | some t2 =>
            if t2.type == TokenType.OPERATOR && t2.value == "=" then pRun fuel σ .assignment
            else do
              let (r, σ₁) ← pRun fuel σ .expr
              let σ₂ ← eat σ₁ TokenType.SEMICOLON
              .ok (r, σ₂)
        else do
          let (r, σ₁) ← pRun fuel σ .expr
          let σ₂ ← eat σ₁ TokenType.SEMICOLON
          .ok (r, σ₂)
    | .return_statement => do
      let σ₁ ← eat σ TokenType.KEYWORD
      let (r, σ₂) ← pRun fuel σ₁ .expr
      let σ₃ ← eat σ₂ TokenType.SEMICOLON
      match r.node with
      | some n => .ok ({ node := some (.Return n) }, σ₃)
      | none => .error .internal
    | .if_statement => do
      let σ₁ ← eat σ TokenType.KEYWORD
      let σ₂ ← eat σ₁ TokenType.LPAREN
      let (rc, σ₃) ← pRun fuel σ₂ .expr
      let σ₄ ← eat σ₃ TokenType.RPAREN
      let σ₅ ← eat σ₄ TokenType.LBRACE
      let (rt, σ₆) ← pRun fuel σ₅ (.stmts [])
      let σ₇ ← eat σ₆ TokenType.RBRACE
      match rc.node with
      | none => .error .internal
      | some c =>
        match σ₇.current with
        | some t =>
          if t.type == TokenType.KEYWORD && t.value == "else" then do
            let σ₈ ← eat σ₇ TokenType.KEYWORD
            let σ₉ ← eat σ₈ TokenType.LBRACE
            let (re, σ₁₀) ← pRun fuel σ₉ (.stmts [])
            let σ₁₁ ← eat σ₁₀ TokenType.RBRACE
            .ok ({ node := some (.If c rt.nodes (some re.nodes)) }, σ₁₁)
          else .ok ({ node := some (.If c rt.nodes none) }, σ₇)
        | none => .ok ({ node := some (.If c rt.nodes none) }, σ₇)
    | .while_statement => do
      let σ₁ ← eat σ TokenType.KEYWORD
      let σ₂ ← eat σ₁ TokenType.LPAREN
      let (rc, σ₃) ← pRun fuel σ₂ .expr
      let σ₄ ← eat σ₃ TokenType.RPAREN
      let σ₅ ← eat σ₄ TokenType.LBRACE
      let (rb, σ₆) ← pRun fuel σ₅ (.stmts [])
      let σ₇ ← eat σ₆ TokenType.RBRACE
      match rc.node with
      | some c => .ok ({ node := some (.While c rb.nodes) }, σ₇)
      | none => .error .internal
    | .assignment =>
      match σ.current with
      | some t => do
        let σ₁ ← eat σ TokenType.IDENTIFIER
        let σ₂ ← eat σ₁ TokenType.OPERATOR
        let (r, σ₃) ← pRun fuel σ₂ .expr
        let σ₄ ← eat σ₃ TokenType.SEMICOLON
        match r.node with
        | some v => .ok ({ node := some (.Assignment t.value v) }, σ₄)
        | none => .error .internal
      | none => .error .atEnd
    | .expr => do
      let (r, σ₁) ← pRun fuel σ .term
      match r.node with
      | some n => pRun fuel σ₁ (.exprLoop n)
      | none => .error .internal
    | .exprLoop n =>
      match σ.current with
      | some t =>
        if t.type == TokenType.OPERATOR && ["+", "-", "<", ">", "=="].contains t.value then do
          let σ₁ ← eat σ TokenType.OPERATOR
          let (r, σ₂) ← pRun fuel σ₁ .term
          match r.node with
          | some rhs => pRun fuel σ₂ (.exprLoop (.BinaryOp n t.value rhs))
          | none => .error .internal
        else .ok ({ node := some n }, σ)
      | none => .ok ({ node := some n }, σ)
    | .term => do
      let (r, σ₁) ← pRun fuel σ .factor
      match r.node with
      | some n => pRun fuel σ₁ (.termLoop n)
      | none => .error .internal
    | .termLoop n =>
      match σ.current with
      | some t =>
        if t.type == TokenType.OPERATOR && ["*", "/"].contains t.value then do
          let σ₁ ← eat σ TokenType.OPERATOR
          let (r, σ₂) ← pRun fuel σ₁ .factor
          match r.node with
          | some rhs => pRun fuel σ₂ (.termLoop (.BinaryOp n t.value rhs))
          | none => .error .internal
        else .ok ({ node := some n }, σ)
      | none => .ok ({ node := some n }, σ)
    | .factor =>
      match σ.current with
      | none => .error .atEnd
      | some t =>
        if t.type == TokenType.NUMBER then do
          let σ₁ ← eat σ TokenType.NUMBER
          match pyFloat t.value with
          | some q => .ok ({ node := some (.Number q) }, σ₁)
          | none => .error .valueError
        else if t.type == TokenType.IDENTIFIER then do
          let σ₁ ← eat σ TokenType.IDENTIFIER
          match σ₁.current with
          | some t2 =>
            if t2.type == TokenType.LPAREN then do
              let σ₂ ← eat σ₁ TokenType.LPAREN
              match σ₂.current with
              | none => .error .atEnd
              | some t3 =>
                if t3.type == TokenType.RPAREN then do
                  let σ₃ ← eat σ₂ TokenType.RPAREN
                  .ok ({ node := some (.FunctionCall t.value []) }, σ₃)
                else do
                  let (r, σ₃) ← pRun fuel σ₂ .expr
                  match r.node with
                  | some a => do
                    let (ra, σ₄) ← pRun fuel σ₃ (.callArgsLoop [a])
                    let σ₅ ← eat σ₄ TokenType.RPAREN
                    .ok ({ node := some (.FunctionCall t.value ra.nodes) }, σ₅)
                  | none => .error .internal
            else .ok ({ node := some (.Variable t.value) }, σ₁)
          | none => .ok ({ node := some (.Variable t.value) }, σ₁)
        else if t.type == TokenType.LPAREN then do
          let σ₁ ← eat σ TokenType.LPAREN
          let (r, σ₂) ← pRun fuel σ₁ .expr
          let σ₃ ← eat σ₂ TokenType.RPAREN
          .ok (r, σ₃)
        else .error (perr σ)
    | .callArgsLoop acc =>
      match σ.current with
      | none => .error .atEnd
      | some t =>
        if t.type == TokenType.COMMA then do
          let σ₁ ← eat σ TokenType.COMMA
          let (r, σ₂) ← pRun fuel σ₁ .expr
          match r.node with
          | some a => pRun fuel σ₂ (.callArgsLoop (acc ++ [a]))
          | none => .error .internal
        else .ok ({ nodes := acc }, σ)

/-- `Parser.parse` on a token list; the fuel comfortably dominates any
terminating parse of the inputs considered in the theorems below. -/
def parseProgram (tokens : List Token) : Except PErr (List Node) := do
  let (r, _) ← pRun (tokens.length * 20 + 100) ⟨tokens, 0⟩ (.parseAll [])
  .ok r.nodes

end ToyParser

/-! ## IR model (the slice of `llvmlite.ir` that `codegen.py` uses) -/

namespace IR

/-- An IR value: a double constant, an instruction result (by id), an
incoming function argument, or a function object (what `generate_code`
returns for a `FunctionDef`). -/
inductive IRValue
  | const (v : FVal)
  | reg (id : Nat)
  | argval (fn : String) (idx : Nat)
  | funcref (name : String)
deriving DecidableEq

/-- The instructions `codegen.py` emits.  Cosmetic instruction names such
as `"addtmp"` are omitted: identity is the numeric id.  `ret none` is
llvmlite's `ret void` (produced by `builder.ret(None)`). -/
inductive IROp
  | fadd (a b : IRValue)
  | fsub (a b : IRValue)
  | fmul (a b : IRValue)
  | fdiv (a b : IRValue)
  | fcmp_ordered (pred : String) (a b : IRValue)
  | uitofp (a : IRValue)
  | load (slot : Nat)
  | store (v : IRValue) (slot : Nat)
  | alloca (name : String)
  | br (target : Nat)
  | cbranch (c : IRValue) (thenBlk elseBlk : Nat)
  | ret (v : Option IRValue)
  | phi (incoming : List (IRValue × Nat))
  | call (fn : String) (args : List IRValue)
deriving DecidableEq

def IROp.is_terminator : IROp → Bool
  | .br _ => true
  | .cbranch _ _ _ => true
  | .ret _ => true
  | _ => false

structure Instr where
  id : Nat
  op : IROp
deriving DecidableEq

structure Block where
  name : String
  instrs : List Instr
deriving DecidableEq

/-- llvmlite `Block.is_terminated`: the **last** instruction is a
terminator. -/
def Block.is_terminated (b : Block) : Bool :=
  match b.instrs.getLast? with
  | some i => i.op.is_terminator
  | none => false

structure IRFunction where
  name : String
  arity : Nat
  blockIds : List Nat
deriving DecidableEq

structure IRModule where
  name : String
  functions : List IRFunction
deriving DecidableEq

/-- Lookup in the module's globals (which, for this program, are exactly
its functions; `add_global` asserts name uniqueness). -/
def fget : List IRFunction → String → Option IRFunction
  | [], _ => none
  | f :: r, n => if f.name = n then some f else fget r n

def fupdate : List IRFunction → String → (IRFunction → IRFunction) → List IRFunction
  | [], _, _ => []
  | f :: r, n, g => if f.name = n then g f :: r else f :: fupdate r n g

/-- llvmlite `IRBuilder` position: a block reference plus an insertion
anchor (index into the block's instruction list). -/
structure Builder where
  blockId : Nat
  anchor : Nat
deriving DecidableEq

end IR

/-- Python dict lookup on an insertion-ordered association list. -/
def dget : List (String × Nat) → String → Option Nat
  | [], _ => none
  | (k, v) :: r, n => if k = n then some v else dget r n

/-- Python dict assignment: overwrite in place, or append a new key. -/
def dset : List (String × Nat) → String → Nat → List (String × Nat)
  | [], n, v => [(n, v)]
  | (k, w) :: r, n, v => if k = n then (n, v) :: r else (k, w) :: dset r n v

def bget : List (Nat × IR.Block) → Nat → Option IR.Block
  | [], _ => none
  | (k, b) :: r, n => if k = n then some b else bget r n

/-- Replace the stored block object (only ever called for present ids). -/
def bset : List (Nat × IR.Block) → Nat → IR.Block → List (Nat × IR.Block)
  | [], _, _ => []
  | (k, b) :: r, n, v => if k = n then (n, v) :: r else (k, b) :: bset r n v

/-! ## Code generator (`codegen.py`) -/

namespace CodeGen

inductive CGErr
  | unknownVariable (name : String)   -- codegen.py:64
  | unknownFunction (name : String)   -- codegen.py:78 (unreachable, see `FunctionCall`)
  | keyError (name : String)          -- Python KeyError raised by Module.get_global
  | attrNone (what : String)          -- AttributeError on a None builder/func
  | typeNone                          -- llvmlite rejecting a None operand
  | callArity (name : String)         -- llvmlite CallInstr arity validation
  | assertTerminated                  -- llvmlite assert in IRBuilder terminator emission
  | duplicateGlobal (name : String)   -- llvmlite assert in Module.add_global
  | indexErr
  | internal
  | fuelOut
deriving DecidableEq

/-- The generator's instance attributes (codegen.py:10-15).  Blocks are
stored once, keyed by id, and functions carry the ids of their blocks; the
current function is carried by its (module-unique) name. -/
structure CGState where
  module : IR.IRModule
  builder : Option IR.Builder
  func : Option String
  vars : List (String × Nat)
  functions : List String
  blocks : List (Nat × IR.Block)
  nextId : Nat
deriving DecidableEq

def initState : CGState := ⟨⟨"toylang_module", []⟩, none, none, [], [], [], 0⟩

def freshId (σ : CGState) : Nat × CGState :=
  (σ.nextId, { σ with nextId := σ.nextId + 1 })

/-- Python `list.insert(i, x)`: insert before index `i`, appending when `i`
is past the end. -/
def insertAt {α : Type} : Nat → α → List α → List α
  | 0, a, l => a :: l
  | _+1, a, [] => [a]
  | n+1, a, x :: l => x :: insertAt n a l

/-- llvmlite `IRBuilder._insert`: insert the instruction at the builder's
anchor, then advance the anchor. -/
def builderInsert (σ : CGState) (op : IR.IROp) : Except CGErr (Nat × CGState) :=
  match σ.builder with
  | none => .error (.attrNone "builder")
  | some b =>
    match bget σ.blocks b.blockId with
    | none => .error .internal
    | some blk =>
      let (iid, σ₁) := freshId σ
      let blk' : IR.Block := { blk with instrs := insertAt b.anchor ⟨iid, op⟩ blk.instrs }
      .ok (iid, { σ₁ with blocks := bset σ₁.blocks b.blockId blk',
                          builder := some { b with anchor := b.anchor + 1 } })

/-- llvmlite `IRBuilder._set_terminator`: asserts the builder's block is
not yet terminated, then inserts. -/
def builderSetTerminator (σ : CGState) (op : IR.IROp) : Except CGErr (Nat × CGState) :=
  match σ.builder with
  | none => .error (.attrNone "builder")
  | some b =>
    match bget σ.blocks b.blockId with
    | none => .error .internal
    | some blk =>
      if blk.is_terminated then .error .assertTerminated
      else builderInsert σ op

/-- `self.builder.position_at_start(block)`: an AttributeError when the
builder is `None`, otherwise re-anchor at index 0. -/
def position_at_start (σ : CGState) (bid : Nat) : Except CGErr CGState :=
  match σ.builder with
  | none => .error (.attrNone "builder")
  | some _ => .ok { σ with builder := some ⟨bid, 0⟩ }

/-- `func.append_basic_block(label)` on the named function. -/
def append_basic_block (σ : CGState) (fname : String) (label : String) : Nat × CGState :=
  let (bid, σ₁) := freshId σ
  (bid, { σ₁ with
    module := { σ₁.module with
      functions := IR.fupdate σ₁.module.functions fname
        (fun f => { f with blockIds := f.blockIds ++ [bid] }) },
    blocks := σ₁.blocks ++ [(bid, ⟨label, []⟩)] })

/-- `self.func.append_basic_block(label)`: AttributeError when `self.func`
is `None`. -/
def appendOnCurrentFunc (σ : CGState) (label : String) : Except CGErr (Nat × CGState) :=
  match σ.func with
  | none => .error (.attrNone "func")
  | some fname => .ok (append_basic_block σ fname label)

/-- `CodeGen._create_entry_block_alloca` (codegen.py:28-36): a throwaway
builder positioned at the start of the current function's entry block
inserts the alloca at index 0.  The anchor of any other builder into the
same block is *not* adjusted — faithful to llvmlite. -/
def create_entry_block_alloca (σ : CGState) (name : String) : Except CGErr (Nat × CGState) :=
  match σ.func with
  | none => .error (.attrNone "func")
  | some fname =>
    match IR.fget σ.module.functions fname with
    | none => .error .internal
    | some f =>
      match f.blockIds.head? with
      | none => .error .indexErr
      | some ebid =>
        match bget σ.blocks ebid with
        | none => .error .internal
        | some blk =>
          let (iid, σ₁) := freshId σ
          .ok (iid, { σ₁ with
            blocks := bset σ₁.blocks ebid { blk with instrs := ⟨iid, .alloca name⟩ :: blk.instrs } })

/-- Arithmetic emission (codegen.py:46-53).  llvmlite's binop wrappers
touch the builder attribute first (AttributeError on `None`), then validate
the operands (a `None` operand is rejected). -/
def emitBinArith (σ : CGState) (mk : IR.IRValue → IR.IRValue → IR.IROp)
    (l r : Option IR.IRValue) : Except CGErr (Option IR.IRValue × CGState) :=
  match σ.builder with
  | none => .error (.attrNone "builder")
  | some _ =>
    match l, r with
    | some lv, some rv => do
      let (iid, σ₁) ← builderInsert σ (mk lv rv)
      .ok (some (.reg iid), σ₁)
    | _, _ => .error .typeNone

/-- The comparison-predicate dictionary at codegen.py:56. -/
def cmpMap (op : String) : String :=
  if op = "<" then "<" else if op = ">" then ">" else if op = "==" then "==" else ""

/-- Comparison emission (codegen.py:54-59): `fcmp_ordered` then `uitofp`. -/
def emitComparison (σ : CGState) (op : String) (l r : Option IR.IRValue) :
    Except CGErr (Option IR.IRValue × CGState) :=
  match σ.builder with
  | none => .error (.attrNone "builder")
  | some _ =>
    match l, r with
    | some lv, some rv => do
      let (cid, σ₁) ← builderInsert σ (.fcmp_ordered (cmpMap op) lv rv)
      let (uid, σ₂) ← builderInsert σ₁ (.uitofp (.reg cid))
      .ok (some (.reg uid), σ₂)
    | _, _ => .error .typeNone

/-- `self.builder.fcmp_ordered('!=', v, 0.0)` — the truth test shared by
the `If` (codegen.py:135) and `While` (codegen.py:186) cases. -/
def truthyCmp (σ : CGState) (v : Option IR.IRValue) : Except CGErr (Nat × CGState) :=
  match σ.builder with
  | none => .error (.attrNone "builder")
  | some _ =>
    match v with
    | some cv => builderInsert σ (.fcmp_ordered "!=" cv (.const (.num 0)))
    | none => .error .typeNone

/-- `if not blk.is_terminated: self.builder.branch(target)`
(codegen.py:151-152 and 160-161): the termination test reads the named
block, the branch is emitted from the builder's current position. -/
def branchIfUnterminated (σ : CGState) (checkBlk target : Nat) : Except CGErr CGState :=
  match bget σ.blocks checkBlk with
  | none => .error .internal
  | some blk =>
    if blk.is_terminated then .ok σ
    else do
      let (_, σ₁) ← builderSetTerminator σ (.br target)
      .ok σ₁

/-- The parameter loop at codegen.py:104-107: one entry-block alloca per
parameter (each inserted at the entry block's start), bound in the fresh
variable map (a duplicate parameter name overwrites, dict-style). -/
def bindArgAllocas : List String → CGState → Except CGErr CGState
  | [], σ => .ok σ
  | a :: rest, σ => do
    let (aid, σ₁) ← create_entry_block_alloca σ a
    bindArgAllocas rest { σ₁ with vars := dset σ₁.vars a aid }

/-- The argument-store loop at codegen.py:112-114. -/
def storeArgs (fname : String) : List String → Nat → CGState → Except CGErr CGState
  | [], _, σ => .ok σ
  | a :: rest, i, σ =>
    match dget σ.vars a with
    | none => .error .internal
    | some slot => do
      let (_, σ₁) ← builderInsert σ (.store (.argval fname i) slot)
      storeArgs fname rest (i + 1) σ₁

/-- codegen.py:84-114: create and register the function (both in the
module's globals and in `self.functions`) — *before* the body is lowered —
then create the entry block, install the fresh (empty) variable map, bind
the parameter allocas, anchor the body builder at the entry block's current
end (`IRBuilder(entry_block)`), and store the incoming arguments.  Saving
and restoring of the enclosing context is done by the caller, as in the
source. -/
def functionDef_prologue (σ : CGState) (name : String) (args : List String) :
    Except CGErr (Nat × CGState) :=
  match IR.fget σ.module.functions name with
  | some _ => .error (.duplicateGlobal name)
  | none =>
    let σ₁ := { σ with
      module := { σ.module with functions := σ.module.functions ++ [⟨name, args.length, []⟩] },
      functions := σ.functions ++ [name] }
    let (ebid, σ₂) := append_basic_block σ₁ name "entry"
    let σ₃ := { σ₂ with func := some name, vars := [] }
    do
      let σ₄ ← bindArgAllocas args σ₃
      match bget σ₄.blocks ebid with
      | none => .error .internal
      | some eb =>
        let σ₅ := { σ₄ with builder := some ⟨ebid, eb.instrs.length⟩ }
        let σ₆ ← storeArgs name args 0 σ₅
        .ok (ebid, σ₆)

/-- codegen.py:120-122: `if not entry_block.is_terminated:
self.builder.ret(0.0)` — note that the test reads the **entry** block while
the `ret` is emitted wherever the builder currently sits. -/
def functionDef_implicit_ret (σ : CGState) (ebid : Nat) : Except CGErr CGState :=
  match bget σ.blocks ebid with
  | none => .error .internal
  | some eb =>
    if eb.is_terminated then .ok σ
    else do
      let (_, σ₁) ← builderSetTerminator σ (.ret (some (.const (.num 0))))
      .ok σ₁

/-- Tasks of the lowering interpreter: `one` is `generate_code` on a node,
`seq` is the `for stmt in body` loops (tracking the last statement's value,
exactly like `then_val`/`else_val`), `arglist` is the argument list
comprehension at codegen.py:80. -/
inductive GTask
  | one (n : Node)
  | seq (l : List Node) (lastVal : Option IR.IRValue)
  | arglist (l : List Node) (acc : List (Option IR.IRValue))

structure GRes where
  v : Option IR.IRValue := none
  vs : List (Option IR.IRValue) := []

def allSome : List (Option IR.IRValue) → Option (List IR.IRValue)
  | [] => some []
  | some v :: r => (allSome r).map (v :: ·)
  | none :: _ => none

/-- `CodeGen.generate_code` (codegen.py:38-203), case for case.  Fuel is
decremented at every recursive call; any sufficiently large fuel computes
the source's actual result. -/
def run : Nat → CGState → GTask → Except CGErr (GRes × CGState)
  | 0, _, _ => .error .fuelOut
  | fuel+1, σ, task =>
    match task with
    | .seq l lastVal =>
      match l with
      | [] => .ok ({ v := lastVal }, σ)
      | s :: rest => do
        let (r, σ₁) ← run fuel σ (.one s)
        run fuel σ₁ (.seq rest r.v)
    | .arglist l acc =>
      match l with
      | [] => .ok ({ vs := acc }, σ)
      | a :: rest => do
        let (r, σ₁) ← run fuel σ (.one a)
        run fuel σ₁ (.arglist rest (acc ++ [r.v]))
    | .one n =>
      match n with
      | .Number q => .ok ({ v := some (.const (.num q)) }, σ)
      | .BinaryOp left operator right => do
        let (lr, σ₁) ← run fuel σ (.one left)
        let (rr, σ₂) ← run fuel σ₁ (.one right)
        if operator = "+" then do
          let (v, σ₃) ← emitBinArith σ₂ IR.IROp.fadd lr.v rr.v
          .ok ({ v := v }, σ₃)
        else if operator = "-" then do
          let (v, σ₃) ← emitBinArith σ₂ IR.IROp.fsub lr.v rr.v
          .ok ({ v := v }, σ₃)
        else if operator = "*" then do
          let (v, σ₃) ← emitBinArith σ₂ IR.IROp.fmul lr.v rr.v
          .ok ({ v := v }, σ₃)
        else if operator = "/" then do
          let (v, σ₃) ← emitBinArith σ₂ IR.IROp.fdiv lr.v rr.v
          .ok ({ v := v }, σ₃)
        else if ["<", ">", "=="].contains operator then do
          let (v, σ₃) ← emitComparison σ₂ operator lr.v rr.v
          .ok ({ v := v }, σ₃)
        else .ok ({}, σ₂)
      | .Variable name =>
        match dget σ.vars name with
        | none => .error (.unknownVariable name)
        | some slot =>
          match σ.builder with
          | none => .error (.attrNone "builder")
          | some _ => do
            let (iid, σ₁) ← builderInsert σ (.load slot)
            .ok ({ v := some (.reg iid) }, σ₁)
      | .Assignment name value => do
        let σ₁ ←
          match dget σ.vars name with
          | some _ => pure σ
          | none => do
            let (aid, σ') ← create_entry_block_alloca σ name
            pure { σ' with vars := dset σ'.vars name aid }
        let (vr, σ₂) ← run fuel σ₁ (.one value)
        match dget σ₂.vars name with
        | none => .error (.keyError name)
        | some slot =>
          match σ₂.builder with
          | none => .error (.attrNone "builder")
          | some _ =>
            match vr.v with
            | none => .error .typeNone
            | some vv => do
              let (_, σ₃) ← builderInsert σ₂ (.store vv slot)
              .ok ({ v := some vv }, σ₃)
      | .FunctionCall name arguments =>
        -- `module.get_global` raises KeyError when the name is absent, so
        -- the source's `if callee is None` test (codegen.py:77-78) and its
        -- dedicated "Unknown function" raise can never fire.
        match IR.fget σ.module.functions name with
        | none => .error (.keyError name)
        | some callee => do
          let (ar, σ₁) ← run fuel σ (.arglist arguments [])
          match σ₁.builder with
          | none => .error (.attrNone "builder")
          | some _ =>
            if ar.vs.length ≠ callee.arity then .error (.callArity name)
            else
              match allSome ar.vs with
              | none => .error .typeNone
              | some vv => do
                let (iid, σ₂) ← builderInsert σ₁ (.call name vv)
                .ok ({ v := some (.reg iid) }, σ₂)
      | .FunctionDef name args body => do
        let saved_builder := σ.builder
        let saved_func := σ.func
        let saved_variables := σ.vars
        let (ebid, σp) ← functionDef_prologue σ name args
        let (_, σb) ← run fuel σp (.seq body none)
        let σe ← functionDef_implicit_ret σb ebid
        .ok ({ v := some (.funcref name) },
             { σe with builder := saved_builder, func := saved_func,
                       vars := saved_variables })
      | .If condition then_body else_body => do
        let (cr, σ₁) ← run fuel σ (.one condition)
        let (cmpId, σ₂) ← truthyCmp σ₁ cr.v
        let (then_bb, σ₃) ← appendOnCurrentFunc σ₂ "then"
        let (else_bb, σ₄) ← appendOnCurrentFunc σ₃ "else"
        let (merge_bb, σ₅) ← appendOnCurrentFunc σ₄ "ifcont"
        let (_, σ₆) ← builderSetTerminator σ₅ (.cbranch (.reg cmpId) then_bb else_bb)
        let σ₇ ← position_at_start σ₆ then_bb
        let (tr, σ₈) ← run fuel σ₇ (.seq then_body none)
        let σ₉ ← branchIfUnterminated σ₈ then_bb merge_bb
        let σ₁₀ ← position_at_start σ₉ else_bb
        let (er, σ₁₁) ← run fuel σ₁₀ (.seq (else_body.getD []) none)
        let σ₁₂ ← branchIfUnterminated σ₁₁ else_bb merge_bb
        let σ₁₃ ← position_at_start σ₁₂ merge_bb
        match tr.v, er.v with
        | some tv, some ev => do
          let (pid, σ₁₄) ← builderInsert σ₁₃ (.phi [(tv, then_bb), (ev, else_bb)])
          .ok ({ v := some (.reg pid) }, σ₁₄)
        | _, _ => .ok ({}, σ₁₃)
      | .While condition body => do
        let (cond_bb, σ₁) ← appendOnCurrentFunc σ "while.cond"
        let (body_bb, σ₂) ← appendOnCurrentFunc σ₁ "while.body"
        let (end_bb, σ₃) ← appendOnCurrentFunc σ₂ "while.end"
        let (_, σ₄) ← builderSetTerminator σ₃ (.br cond_bb)
        let σ₅ ← position_at_start σ₄ cond_bb
        let (cr, σ₆) ← run fuel σ₅ (.one condition)
        let (cmpId, σ₇) ← truthyCmp σ₆ cr.v
        let (_, σ₈) ← builderSetTerminator σ₇ (.cbranch (.reg cmpId) body_bb end_bb)
        let σ₉ ← position_at_start σ₈ body_bb
        let (_, σ₁₀) ← run fuel σ₉ (.seq body none)
        let (_, σ₁₁) ← builderSetTerminator σ₁₀ (.br cond_bb)
        let σ₁₂ ← position_at_start σ₁₁ end_bb
        .ok ({}, σ₁₂)
      | .Return value => do
        let (vr, σ₁) ← run fuel σ (.one value)
        let (_, σ₂) ← builderSetTerminator σ₁ (.ret vr.v)
        .ok ({}, σ₂)

/-- `CodeGen.generate_code` on one node: the result value and the updated
generator state. -/
def generate_code (fuel : Nat) (σ : CGState) (n : Node) :
    Except CGErr (Option IR.IRValue × CGState) := do
  let (r, σ') ← run fuel σ (.one n)
  .ok (r.v, σ')

def createIrGo (fuel : Nat) : List Node → CGState → Except CGErr CGState
  | [], σ => .ok σ
  | n :: rest, σ => do
    let (_, σ₁) ← run fuel σ (.one n)
    createIrGo fuel rest σ₁

/-- `CodeGen.create_ir` (codegen.py:205-217): lower every top-level node,
then, if a function named `main` was registered and its *last* block is
unterminated, anchor a fresh builder at that block's end and append
`ret 0.0`.  The returned module is what `str(self.module)` serializes. -/
def create_ir (fuel : Nat) (σ : CGState) (ast : List Node) :
    Except CGErr (IR.IRModule × CGState) := do
  let σ₁ ← createIrGo fuel ast σ
  if σ₁.functions.contains "main" then
    match IR.fget σ₁.module.functions "main" with
    | none => .error .internal
    | some mf =>
      match mf.blockIds.getLast? with
      | none => .error .indexErr
      | some bid =>
        match bget σ₁.blocks bid with
        | none => .error .internal
        | some blk =>
          if blk.is_terminated then .ok (σ₁.module, σ₁)
          else do
            let σ₂ := { σ₁ with builder := some ⟨bid, blk.instrs.length⟩ }
            let (_, σ₃) ← builderSetTerminator σ₂ (.ret (some (.const (.num 0))))
            .ok (σ₃.module, σ₃)
  else .ok (σ₁.module, σ₁)

end CodeGen

/-! ## A small executable semantics for the emitted IR

Used to state the value-level halves of the claims (what a comparison
evaluates to, what a load yields, which incoming value a phi selects). -/

namespace Exec

inductive RVal
  | fv (v : FVal)
  | bv (b : Bool)
deriving DecidableEq

def fvAdd : FVal → FVal → FVal
  | .num a, .num b => .num (a + b)
  | _, _ => .nan

def fvSub : FVal → FVal → FVal
  | .num a, .num b => .num (a - b)
  | _, _ => .nan

def fvMul : FVal → FVal → FVal
  | .num a, .num b => .num (a * b)
  | _, _ => .nan

def fvDiv : FVal → FVal → FVal
  | .num a, .num b => if b = 0 then .nan else .num (a / b)
  | _, _ => .nan

/-- Ordered floating comparison: false whenever either operand is NaN. -/
def fcmp_ordered_sem (pred : String) (x y : FVal) : Bool :=
  match x, y with
  | .num a, .num b =>
    if pred = "<" then decide (a < b)
    else if pred = ">" then decide (b < a)
    else if pred = "==" then decide (a = b)
    else if pred = "!=" then decide (a ≠ b)
    else false
  | _, _ => false

/-- `uitofp` of an `i1`: exactly 0.0 or 1.0. -/
def uitofp_sem (b : Bool) : FVal := .num (if b then 1 else 0)

def aget {β : Type} : List (Nat × β) → Nat → Option β
  | [], _ => none
  | (k, v) :: r, n => if k = n then some v else aget r n

def aset {β : Type} : List (Nat × β) → Nat → β → List (Nat × β)
  | [], n, v => [(n, v)]
  | (k, w) :: r, n, v => if k = n then (n, v) :: r else (k, w) :: aset r n v

structure ExecSt where
  cur : Nat
  idx : Nat
  prev : Option Nat
  regs : List (Nat × RVal)
  mem : List (Nat × FVal)
deriving DecidableEq

def evalV (regs : List (Nat × RVal)) (args : List FVal) : IR.IRValue → Option RVal
  | .const v => some (.fv v)
  | .reg i => aget regs i
  | .argval _ i => (args.get? i).map .fv
  | .funcref _ => none

/-- Run the blocks of one function; `some (some q)` means `ret q` was
executed, `some none` a `ret void`, `none` that execution got stuck or ran
out of fuel.  Calls are not interpreted (no claim needs them). -/
def execGo (σ : CodeGen.CGState) (args : List FVal) : Nat → ExecSt → Option (Option FVal)
  | 0, _ => none
  | fuel+1, st =>
    match bget σ.blocks st.cur with
    | none => none
    | some blk =>
      match blk.instrs.get? st.idx with
      | none => none
      | some instr =>
        match instr.op with
        | .fadd a b =>
          match evalV st.regs args a, evalV st.regs args b with
          | some (.fv x), some (.fv y) =>
            execGo σ args fuel { st with idx := st.idx + 1, regs := aset st.regs instr.id (.fv (fvAdd x y)) }
          | _, _ => none
        | .fsub a b =>
          match evalV st.regs args a, evalV st.regs args b with
          | some (.fv x), some (.fv y) =>
            execGo σ args fuel { st with idx := st.idx + 1, regs := aset st.regs instr.id (.fv (fvSub x y)) }
          | _, _ => none
        | .fmul a b =>
          match evalV st.regs args a, evalV st.regs args b with
          | some (.fv x), some (.fv y) =>
            execGo σ args fuel { st with idx := st.idx + 1, regs := aset st.regs instr.id (.fv (fvMul x y)) }
          | _, _ => none
        | .fdiv a b =>
          match evalV st.regs args a, evalV st.regs args b with
          | some (.fv x), some (.fv y) =>
            execGo σ args fuel { st with idx := st.idx + 1, regs := aset st.regs instr.id (.fv (fvDiv x y)) }
          | _, _ => none
        | .fcmp_ordered pred a b =>
          match evalV st.regs args a, evalV st.regs args b with
          | some (.fv x), some (.fv y) =>
            execGo σ args fuel { st with idx := st.idx + 1, regs := aset st.regs instr.id (.bv (fcmp_ordered_sem pred x y)) }
          | _, _ => none
        | .uitofp a =>
          match evalV st.regs args a with
          | some (.bv b) =>
            execGo σ args fuel { st with idx := st.idx + 1, regs := aset st.regs instr.id (.fv (uitofp_sem b)) }
          | _ => none
        | .load slot =>
          match aget st.mem slot with
          | some v =>
            execGo σ args fuel { st with idx := st.idx + 1, regs := aset st.regs instr.id (.fv v) }
          | none => none
        | .store v slot =>
          match evalV st.regs args v with
          | some (.fv x) =>
            execGo σ args fuel { st with idx := st.idx + 1, mem := aset st.mem slot x }
          | _ => none
        | .alloca _ => execGo σ args fuel { st with idx := st.idx + 1 }
        | .br t =>
          execGo σ args fuel { st with cur := t, idx := 0, prev := some st.cur }
        | .cbranch c t f =>
          match evalV st.regs args c with
          | some (.bv b) =>
            execGo σ args fuel { st with cur := if b then t else f, idx := 0, prev := some st.cur }
          | _ => none
        | .ret v =>
          match v with
          | none => some none
          | some x =>
            match evalV st.regs args x with
            | some (.fv q) => some (some q)
            | _ => none
        | .phi incs =>
          match st.prev with
          | none => none
          | some p =>
            match incs.find? (fun pr => pr.2 == p) with
            | some (val, _) =>
              match evalV st.regs args val with
              | some rv =>
                execGo σ args fuel { st with idx := st.idx + 1, regs := aset st.regs instr.id rv }
              | none => none
            | none => none
        | .call _ _ => none

/-- Execute the named function of a generated module on argument values. -/
def runFunction (σ : CodeGen.CGState) (fname : String) (args : List FVal)
    (fuel : Nat) : Option (Option FVal) :=
  match IR.fget σ.module.functions fname with
  | none => none
  | some f =>
    match f.blockIds.head? with
    | none => none
    | some entry => execGo σ args fuel ⟨entry, 0, none, [], []⟩

end Exec

/-! ## Shared definitions for the claim statements -/

def isOkE {ε α : Type} : Except ε α → Bool
  | .ok _ => true
  | .error _ => false

namespace CodeGen

/-- The top-level generator state: no current function, no builder, empty
variable map (codegen.py:12-14; every `FunctionDef` restores it). -/
def TopState (σ : CGState) : Prop := σ.builder = none ∧ σ.func = none ∧ σ.vars = []

/-- Node kinds whose lowering must emit instructions: every AST node the
parser can produce except a bare `Number` and a `FunctionDef` (a
`BinaryOp`'s operator ranges over the grammar's seven operators). -/
def mustEmit : Node → Bool
  | .BinaryOp _ op _ => ["+", "-", "*", "/", "<", ">", "=="].contains op
  | .Variable _ => true
  | .Assignment _ _ => true
  | .FunctionCall _ _ => true
  | .If _ _ _ => true
  | .While _ _ => true
  | .Return _ => true
  | .Number _ => false
  | .FunctionDef _ _ _ => false

/-- A generator state part-way through lowering `def f() { … }`: builder at
the start of the still-empty entry block of `f`, one enclosing variable
binding.  Used to instantiate the hypothesis-carrying theorems at concrete
inputs. -/
def midState : CGState :=
  ⟨⟨"toylang_module", [⟨"f", 0, [0]⟩]⟩, some ⟨0, 0⟩, some "f", [("w", 100)], ["f"],
   [(0, ⟨"entry", []⟩)], 101⟩

end CodeGen

/-- `def f() { return (if (c) { a; } else { b; }); }` as an AST: the
if-as-expression value is consumed by the `return`. -/
def c2ast (c a b : ℚ) : List Node :=
  [.FunctionDef "f" [] [.Return (.If (.Number c) [.Number a] (some [.Number b]))]]

/-- `def g() { x = n1; x = n2; return x; }` as an AST. -/
def c5ast (n1 n2 : ℚ) : List Node :=
  [.FunctionDef "g" []
    [.Assignment "x" (.Number n1), .Assignment "x" (.Number n2), .Return (.Variable "x")]]

/-! ## Helper lemmas -/

theorem ebind_ok {ε α β : Type} (a : α) (f : α → Except ε β) :
    (Except.ok a : Except ε α) >>= f = f a := rfl

theorem ebind_err {ε α β : Type} (e : ε) (f : α → Except ε β) :
    (Except.error e : Except ε α) >>= f = .error e := rfl

theorem epure {ε α : Type} (a : α) : (pure a : Except ε α) = .ok a := rfl

theorem except_bind_ok {ε α β : Type} {x : Except ε α} {f : α → Except ε β} {b : β}
    (h : x >>= f = .ok b) : ∃ a, x = .ok a ∧ f a = .ok b := by
  cases x with
  | ok a => exact ⟨a, rfl, h⟩
  | error e => exact absurd h (by simp [ebind_err])

theorem except_bind_err {ε α β : Type} (e : ε) (f : α → Except ε β) :
    (Except.error e : Except ε α) >>= f = .error e := rfl

theorem dget_dset_ne (m : List (String × Nat)) (k y : String) (v : Nat) (h : k ≠ y) :
    dget (dset m k v) y = dget m y := by
  induction m with
  | nil => simp [dget, dset, h]
  | cons p r ih =>
    obtain ⟨a, b⟩ := p
    by_cases ha : a = k
    · subst ha; simp [dget, dset, h]
    · simp only [dset, if_neg ha]
      by_cases hy : a = y
      · subst hy; simp [dget]
      · simp [dget, hy, ih]

theorem fget_append_right (l : List IR.IRFunction) (f : IR.IRFunction)
    (h : IR.fget l f.name = none) : IR.fget (l ++ [f]) f.name = some f := by
  induction l with
  | nil => simp [IR.fget]
  | cons g r ih =>
    by_cases hg : g.name = f.name
    · simp [IR.fget, hg] at h
    · simp only [IR.fget, hg, if_neg hg, List.cons_append] at h ⊢
      exact ih h

theorem fget_fupdate_self (l : List IR.IRFunction) (n : String)
    (g : IR.IRFunction → IR.IRFunction) (f : IR.IRFunction)
    (hg : ∀ f', (g f').name = f'.name)
    (h : IR.fget l n = some f) : IR.fget (IR.fupdate l n g) n = some (g f) := by
  induction l with
  | nil => simp [IR.fget] at h
  | cons p r ih =>
    by_cases hp : p.name = n
    · simp only [IR.fget, if_pos hp] at h
      cases h
      simp [IR.fupdate, IR.fget, hp, hg]
    · simp only [IR.fget, if_neg hp] at h
      simp only [IR.fupdate, if_neg hp, IR.fget]
      exact ih h

namespace CodeGen

theorem builderInsert_ok_inv {σ : CGState} {op : IR.IROp} {iid : Nat} {σ' : CGState}
    (h : builderInsert σ op = .ok (iid, σ')) :
    σ'.vars = σ.vars ∧ σ'.func = σ.func ∧ σ'.module = σ.module
      ∧ σ'.functions = σ.functions := by
  unfold builderInsert at h
  cases hb : σ.builder with
  | none => simp only [hb] at h; exact Except.noConfusion h
  | some b =>
    simp only [hb] at h
    cases hblk : bget σ.blocks b.blockId with
    | none => simp only [hblk] at h; exact Except.noConfusion h
    | some blk =>
      simp only [hblk, freshId, Except.ok.injEq, Prod.mk.injEq] at h
      obtain ⟨-, h2⟩ := h
      subst h2
      exact ⟨rfl, rfl, rfl, rfl⟩

theorem create_entry_block_alloca_ok_inv {σ : CGState} {name : String} {aid : Nat}
    {σ' : CGState} (h : create_entry_block_alloca σ name = .ok (aid, σ')) :
    σ'.vars = σ.vars ∧ σ'.func = σ.func ∧ σ'.module = σ.module
      ∧ σ'.functions = σ.functions ∧ σ'.builder = σ.builder := by
  unfold create_entry_block_alloca at h
  cases h1 : σ.func with
  | none => simp only [h1] at h; exact Except.noConfusion h
  | some fname =>
    simp only [h1] at h
    cases h2 : IR.fget σ.module.functions fname with
    | none => simp only [h2] at h; exact Except.noConfusion h
    | some f =>
      simp only [h2] at h
      cases h3 : f.blockIds.head? with
      | none => simp only [h3] at h; exact Except.noConfusion h
      | some ebid =>
        simp only [h3] at h
        cases h4 : bget σ.blocks ebid with
        | none => simp only [h4] at h; exact Except.noConfusion h
        | some blk =>
          simp only [h4, freshId, Except.ok.injEq, Prod.mk.injEq] at h
          obtain ⟨-, h5⟩ := h
          subst h5
          exact ⟨rfl, h1, rfl, rfl, rfl⟩

theorem bindArgAllocas_ok_inv :
    ∀ (args : List String) (σ σ' : CGState), bindArgAllocas args σ = .ok σ' →
      σ'.func = σ.func ∧ σ'.module = σ.module ∧ σ'.functions = σ.functions
        ∧ σ'.builder = σ.builder
        ∧ (∀ y, y ∉ args → dget σ'.vars y = dget σ.vars y) := by
  intro args
  induction args with
  | nil =>
    intro σ σ' h
    simp only [bindArgAllocas, Except.ok.injEq] at h
    subst h
    exact ⟨rfl, rfl, rfl, rfl, fun _ _ => rfl⟩
  | cons a rest ih =>
    intro σ σ' h
    simp only [bindArgAllocas] at h
    obtain ⟨⟨aid, σ₁⟩, hca, hrest⟩ := except_bind_ok h
    obtain ⟨hv, hf, hm, hfns, hb⟩ := create_entry_block_alloca_ok_inv hca
    obtain ⟨rf, rm, rfs, rb, rv⟩ := ih _ _ hrest
    refine ⟨by rw [rf]; exact hf, by rw [rm]; exact hm, by rw [rfs]; exact hfns,
      by rw [rb]; exact hb, ?_⟩
    intro y hy
    have h1 : y ∉ rest := fun hc => hy (List.mem_cons_of_mem _ hc)
    have h2 : a ≠ y := fun hc => hy (hc ▸ List.mem_cons_self a rest)
    rw [rv y h1]
    show dget (dset σ₁.vars a aid) y = dget σ.vars y
    rw [dget_dset_ne _ _ _ _ h2, hv]

theorem storeArgs_ok_inv :
    ∀ (args : List String) (i : Nat) (fname : String) (σ σ' : CGState),
      storeArgs fname args i σ = .ok σ' →
      σ'.vars = σ.vars ∧ σ'.func = σ.func ∧ σ'.module = σ.module
        ∧ σ'.functions = σ.functions := by
  intro args
  induction args with
  | nil =>
    intro i fname σ σ' h
    simp only [storeArgs, Except.ok.injEq] at h
    subst h
    exact ⟨rfl, rfl, rfl, rfl⟩
  | cons a rest ih =>
    intro i fname σ σ' h
    simp only [storeArgs] at h
    cases hg : dget σ.vars a with
    | none => simp only [hg] at h; exact Except.noConfusion h
    | some slot =>
      simp only [hg] at h
      obtain ⟨⟨iid, σ₁⟩, hbi, hrest⟩ := except_bind_ok h
      obtain ⟨bv, bf, bm, bfn⟩ := builderInsert_ok_inv hbi
      obtain ⟨rv, rf, rm, rfn⟩ := ih _ _ _ _ hrest
      exact ⟨by rw [rv]; exact bv, by rw [rf]; exact bf, by rw [rm]; exact bm,
        by rw [rfn]; exact bfn⟩

theorem position_at_start_ok_inv {σ σ' : CGState} {bid : Nat}
    (h : position_at_start σ bid = .ok σ') :
    σ' = { σ with builder := some ⟨bid, 0⟩ } := by
  unfold position_at_start at h
  cases hb : σ.builder with
  | none => simp only [hb] at h; exact Except.noConfusion h
  | some b => simp only [hb, Except.ok.injEq] at h; exact h.symm

/-- Lowering from a top-level state (no builder, no current function, empty
variable map) can only succeed without disturbing that state: a
`FunctionDef` restores it and a bare `Number` never touches it, while every
other node kind errors before changing it. -/
theorem run_preserves_TopState :
    ∀ (fuel : Nat) (task : GTask) (σ σ' : CGState) (r : GRes),
      TopState σ → run fuel σ task = .ok (r, σ') → TopState σ' := by
  intro fuel
  induction fuel with
  | zero => intro task σ σ' r _ h; exact Except.noConfusion h
  | succ fuel ih =>
    intro task σ σ' r hT h
    obtain ⟨hb, hf, hv⟩ := hT
    cases task with
    | seq l lastVal =>
      cases l with
      | nil =>
        simp only [run, Except.ok.injEq, Prod.mk.injEq] at h
        obtain ⟨-, h2⟩ := h
        subst h2
        exact ⟨hb, hf, hv⟩
      | cons s rest =>
        simp only [run] at h
        obtain ⟨⟨r₁, σ₁⟩, h1, h2⟩ := except_bind_ok h
        exact ih _ _ _ _ (ih _ _ _ _ ⟨hb, hf, hv⟩ h1) h2
    | arglist l acc =>
      cases l with
      | nil =>
        simp only [run, Except.ok.injEq, Prod.mk.injEq] at h
        obtain ⟨-, h2⟩ := h
        subst h2
        exact ⟨hb, hf, hv⟩
      | cons a rest =>
        simp only [run] at h
        obtain ⟨⟨r₁, σ₁⟩, h1, h2⟩ := except_bind_ok h
        exact ih _ _ _ _ (ih _ _ _ _ ⟨hb, hf, hv⟩ h1) h2
    | one n =>
      cases n with
      | Number q =>
        simp only [run, Except.ok.injEq, Prod.mk.injEq] at h
        obtain ⟨-, h2⟩ := h
        subst h2
        exact ⟨hb, hf, hv⟩
      | BinaryOp l op r' =>
        simp only [run] at h
        obtain ⟨⟨lr, σ₁⟩, h1, h2⟩ := except_bind_ok h
        obtain ⟨hb₁, hf₁, hv₁⟩ := ih _ _ _ _ ⟨hb, hf, hv⟩ h1
        obtain ⟨⟨rr, σ₂⟩, h3, h4⟩ := except_bind_ok h2
        obtain ⟨hb₂, hf₂, hv₂⟩ := ih _ _ _ _ ⟨hb₁, hf₁, hv₁⟩ h3
        split at h4
        · rw [show emitBinArith σ₂ IR.IROp.fadd lr.v rr.v = .error (.attrNone "builder") by
            simp [emitBinArith, hb₂], ebind_err] at h4
          exact Except.noConfusion h4
        · split at h4
          · rw [show emitBinArith σ₂ IR.IROp.fsub lr.v rr.v = .error (.attrNone "builder") by
              simp [emitBinArith, hb₂], ebind_err] at h4
            exact Except.noConfusion h4
          · split at h4
            · rw [show emitBinArith σ₂ IR.IROp.fmul lr.v rr.v = .error (.attrNone "builder") by
                simp [emitBinArith, hb₂], ebind_err] at h4
              exact Except.noConfusion h4
            · split at h4
              · rw [show emitBinArith σ₂ IR.IROp.fdiv lr.v rr.v = .error (.attrNone "builder") by
                  simp [emitBinArith, hb₂], ebind_err] at h4
                exact Except.noConfusion h4
              · split at h4
                · rw [show emitComparison σ₂ op lr.v rr.v = .error (.attrNone "builder") by
                    simp [emitComparison, hb₂], ebind_err] at h4
                  exact Except.noConfusion h4
                · simp only [Except.ok.injEq, Prod.mk.injEq] at h4
                  obtain ⟨-, h5⟩ := h4
                  subst h5
                  exact ⟨hb₂, hf₂, hv₂⟩
      | Variable name =>
        simp only [run, hv, dget] at h
        exact Except.noConfusion h
      | Assignment name value =>
        simp only [run, hv, dget, create_entry_block_alloca, hf, ebind_err] at h
        exact Except.noConfusion h
      | FunctionCall name arguments =>
        simp only [run] at h
        cases hfg : IR.fget σ.module.functions name with
        | none => simp only [hfg] at h; exact Except.noConfusion h
        | some callee =>
          simp only [hfg] at h
          obtain ⟨⟨ar, σ₁⟩, h1, h2⟩ := except_bind_ok h
          obtain ⟨hb₁, -, -⟩ := ih _ _ _ _ ⟨hb, hf, hv⟩ h1
          rw [hb₁] at h2
          exact Except.noConfusion h2
      | FunctionDef name args body =>
        simp only [run] at h
        obtain ⟨⟨ebid, σp⟩, h1, h2⟩ := except_bind_ok h
        obtain ⟨⟨rb, σb⟩, h3, h4⟩ := except_bind_ok h2
        obtain ⟨σe, h5, h6⟩ := except_bind_ok h4
        simp only [Except.ok.injEq, Prod.mk.injEq] at h6
        obtain ⟨-, h7⟩ := h6
        subst h7
        exact ⟨hb, hf, hv⟩
      | If condition then_body else_body =>
        simp only [run] at h
        obtain ⟨⟨cr, σ₁⟩, h1, h2⟩ := except_bind_ok h
        obtain ⟨hb₁, -, -⟩ := ih _ _ _ _ ⟨hb, hf, hv⟩ h1
        rw [show truthyCmp σ₁ cr.v = .error (.attrNone "builder") by
          simp [truthyCmp, hb₁], ebind_err] at h2
        exact Except.noConfusion h2
      | While condition body =>
        simp only [run, appendOnCurrentFunc, hf, ebind_err] at h
        exact Except.noConfusion h
      | Return value =>
        simp only [run] at h
        obtain ⟨⟨vr, σ₁⟩, h1, h2⟩ := except_bind_ok h
        obtain ⟨hb₁, -, -⟩ := ih _ _ _ _ ⟨hb, hf, hv⟩ h1
        rw [show builderSetTerminator σ₁ (.ret vr.v) = .error (.attrNone "builder") by
          simp [builderSetTerminator, hb₁], ebind_err] at h2
        exact Except.noConfusion h2

end CodeGen

/-! ## The claims -/

/-- Claim C1 (code-bug evidence): lowering
`def f() { if (1) { 2; } else { 3; } }` succeeds, the ENTRY block is
terminated (by the `if`'s conditional branch), yet the function's LAST
block — the if-merge block, id 4 — is left without a terminator and no
implicit `return 0.0` is appended: codegen.py:121 tests
`entry_block.is_terminated` instead of the function's final block,
contradicting the source's own comment ("Add a return 0.0 if the function
doesn't have a return statement").  For contrast, the last conjunct shows a
straight-line function body (`def g() { 5; }`) does get the implicit
return in its final (entry) block. -/
theorem claim_C1 :
    ∃ σ τ, CodeGen.generate_code 64 CodeGen.initState
        (Node.FunctionDef "f" [] [Node.If (Node.Number 1) [Node.Number 2] (some [Node.Number 3])])
      = .ok (some (IR.IRValue.funcref "f"), σ)
    ∧ (IR.fget σ.module.functions "f").map (fun f => f.blockIds.getLast?) = some (some 4)
    ∧ (bget σ.blocks 0).map IR.Block.is_terminated = some true
    ∧ (bget σ.blocks 4).map IR.Block.is_terminated = some false
    ∧ CodeGen.generate_code 64 CodeGen.initState (Node.FunctionDef "g" [] [Node.Number 5])
      = .ok (some (IR.IRValue.funcref "g"), τ)
    ∧ (bget τ.blocks 0).map (fun b => b.instrs.map (fun i => i.op))
      = some [IR.IROp.ret (some (.const (.num 0)))] := by
  exact ⟨_, _, rfl, rfl, rfl, rfl, rfl, rfl⟩

/-- Claim C4 (code-bug evidence): the lexer emits only single-character
operator tokens (lexer.py:86-89), so `a == b;` lexes as two separate `=`
operator tokens and no token with value `==` exists.  The parser then
misparses the statement as an assignment and fails on the second `=`
("Invalid factor"), and inside an `if` condition it fails expecting `)`.
No `BinaryOp` with operator `==` is ever produced, so the `==` entries at
parser.py:140 and codegen.py:54-56 are unreachable. -/
theorem claim_C4 :
    (Lexer.tokenize "a == b;").toOption.map (fun ts => ts.map fun t => (t.type, t.value))
      = some [(TokenType.IDENTIFIER, "a"), (TokenType.OPERATOR, "="),
              (TokenType.OPERATOR, "="), (TokenType.IDENTIFIER, "b"),
              (TokenType.SEMICOLON, ";"), (TokenType.EOF, "")]
    ∧ (Lexer.tokenize "a == b;").toOption.map
        (fun ts => isOkE (ToyParser.parseProgram ts)) = some false
    ∧ (Lexer.tokenize "if (a == b) \x7b 1; \x7d").toOption.map
        (fun ts => isOkE (ToyParser.parseProgram ts)) = some false := by
  exact ⟨rfl, rfl, rfl⟩

/-- Claim C10: from the top-level generator state (builder unset, no
current function, empty variable map) every node that must emit
instructions — a `BinaryOp` over the grammar's operators, a `Variable`
read, an `Assignment`, an `If`, a `While`, a `Return`, or a `FunctionCall`
— fails to lower; and the parser does accept statements intermixed with
function definitions at top level, whose generation then fails. -/
theorem claim_C10 :
    (∀ (fuel : Nat) (σ : CodeGen.CGState) (n : Node),
      CodeGen.TopState σ → CodeGen.mustEmit n = true →
      ∃ e, CodeGen.run (fuel + 1) σ (.one n) = .error e)
    ∧ (Lexer.tokenize "def f() \x7b return 1; \x7d 2 + 3;").toOption.map
        (fun ts => (ToyParser.parseProgram ts).toOption.map
          (fun ns => CodeGen.create_ir 64 CodeGen.initState ns))
        = some (some (.error (.attrNone "builder"))) := by
  constructor
  · intro fuel σ n hT hE
    obtain ⟨hb, hf, hv⟩ := hT
    cases n with
    | Number q => simp [CodeGen.mustEmit] at hE
    | FunctionDef name args body => simp [CodeGen.mustEmit] at hE
    | BinaryOp l op r =>
      cases hl : CodeGen.run fuel σ (.one l) with
      | error e => exact ⟨e, by simp only [CodeGen.run, hl, ebind_err]⟩
      | ok p =>
        obtain ⟨lr, σ₁⟩ := p
        obtain ⟨hb₁, hf₁, hv₁⟩ := CodeGen.run_preserves_TopState _ _ _ _ _ ⟨hb, hf, hv⟩ hl
        cases hr : CodeGen.run fuel σ₁ (.one r) with
        | error e => exact ⟨e, by simp only [CodeGen.run, hl, hr, ebind_ok, ebind_err]⟩
        | ok p₂ =>
          obtain ⟨rr, σ₂⟩ := p₂
          obtain ⟨hb₂, -, -⟩ := CodeGen.run_preserves_TopState _ _ _ _ _ ⟨hb₁, hf₁, hv₁⟩ hr
          refine ⟨.attrNone "builder", ?_⟩
          have h5 : op ∈ (["+", "-", "*", "/", "<", ">", "=="] : List String) := by
            have h4 : CodeGen.mustEmit (Node.BinaryOp l op r) = true := hE
            simp only [CodeGen.mustEmit, List.contains] at h4
            exact List.elem_iff.mp h4
          fin_cases h5 <;>
            simp [CodeGen.run, hl, hr, CodeGen.emitBinArith, CodeGen.emitComparison,
              hb₂, ebind_ok, ebind_err]
    | Variable name =>
      exact ⟨.unknownVariable name, by simp [CodeGen.run, hv, dget]⟩
    | Assignment name value =>
      exact ⟨.attrNone "func",
        by simp [CodeGen.run, hv, dget, CodeGen.create_entry_block_alloca, hf, ebind_err]⟩
    | FunctionCall name arguments =>
      cases hfg : IR.fget σ.module.functions name with
      | none => exact ⟨.keyError name, by simp [CodeGen.run, hfg]⟩
      | some callee =>
        cases ha : CodeGen.run fuel σ (.arglist arguments []) with
        | error e => exact ⟨e, by simp [CodeGen.run, hfg, ha, ebind_err]⟩
        | ok p =>
          obtain ⟨ar, σ₁⟩ := p
          obtain ⟨hb₁, -, -⟩ := CodeGen.run_preserves_TopState _ _ _ _ _ ⟨hb, hf, hv⟩ ha
          exact ⟨.attrNone "builder", by simp [CodeGen.run, hfg, ha, hb₁, ebind_ok]⟩
    | If condition then_body else_body =>
      cases hc : CodeGen.run fuel σ (.one condition) with
      | error e => exact ⟨e, by simp only [CodeGen.run, hc, ebind_err]⟩
      | ok p =>
        obtain ⟨cr, σ₁⟩ := p
        obtain ⟨hb₁, -, -⟩ := CodeGen.run_preserves_TopState _ _ _ _ _ ⟨hb, hf, hv⟩ hc
        exact ⟨.attrNone "builder",
          by simp [CodeGen.run, hc, CodeGen.truthyCmp, hb₁, ebind_ok, ebind_err]⟩
    | While condition body =>
      exact ⟨.attrNone "func", by simp [CodeGen.run, CodeGen.appendOnCurrentFunc, hf, ebind_err]⟩
    | Return value =>
      cases hr' : CodeGen.run fuel σ (.one value) with
      | error e => exact ⟨e, by simp only [CodeGen.run, hr', ebind_err]⟩
      | ok p =>
        obtain ⟨vr, σ₁⟩ := p
        obtain ⟨hb₁, -, -⟩ := CodeGen.run_preserves_TopState _ _ _ _ _ ⟨hb, hf, hv⟩ hr'
        exact ⟨.attrNone "builder",
          by simp [CodeGen.run, hr', CodeGen.builderSetTerminator, hb₁, ebind_ok, ebind_err]⟩
  · rfl

/-- Claim C10, witnessed: at the initial generator state a top-level
variable read (a node that must emit instructions) fails. -/
theorem claim_C10_witness :
    ∃ e, CodeGen.run 64 CodeGen.initState (.one (Node.Variable "x")) = .error e :=
  claim_C10.1 63 CodeGen.initState (Node.Variable "x") ⟨rfl, rfl, rfl⟩ rfl

/-- Claim C9 counterexample: a `While` whose body CONTAINS a `Return` — as
its first statement, followed by an assignment — still completes code
generation and yields a module (the store emitted after the `ret` makes
the body block's last instruction a non-terminator, so the unconditional
back-branch passes llvmlite's not-terminated assertion; the resulting IR
is ill-formed but a module string is produced).  This refutes the claim
for bodies that merely *contain* a `Return`. -/
theorem claim_C9_counterexample :
    isOkE (CodeGen.create_ir 64 CodeGen.initState
      [Node.FunctionDef "f" []
        [Node.While (Node.Number 1)
          [Node.Return (Node.Number 2), Node.Assignment "y" (Node.Number 3)]]]) = true := rfl

/-- Claim C9 amended: when the body statements of a `While` are lowered
successfully but leave the builder's block terminated — as happens whenever
the body's LAST statement is a `Return` — the unconditional back-branch at
codegen.py:194 trips llvmlite's double-termination assertion, and code
generation fails rather than produce a module.  The hypotheses record the
successful earlier stages of the `While` lowering exactly as
`generate_code` performs them. -/
theorem claim_C9_amended (fuel : Nat) {σ σ₁ σ₂ σ₃ σ₄ σ₅ σ₆ σ₇ σ₈ σ₉ σ₁₀ : CodeGen.CGState}
    {condition : Node} {body : List Node} {cond_bb body_bb end_bb cmpId t₁ t₂ : Nat}
    {cr br' : CodeGen.GRes} {bld : IR.Builder} {blk : IR.Block}
    (h₁ : CodeGen.appendOnCurrentFunc σ "while.cond" = .ok (cond_bb, σ₁))
    (h₂ : CodeGen.appendOnCurrentFunc σ₁ "while.body" = .ok (body_bb, σ₂))
    (h₃ : CodeGen.appendOnCurrentFunc σ₂ "while.end" = .ok (end_bb, σ₃))
    (h₄ : CodeGen.builderSetTerminator σ₃ (.br cond_bb) = .ok (t₁, σ₄))
    (h₅ : CodeGen.position_at_start σ₄ cond_bb = .ok σ₅)
    (h₆ : CodeGen.run fuel σ₅ (.one condition) = .ok (cr, σ₆))
    (h₇ : CodeGen.truthyCmp σ₆ cr.v = .ok (cmpId, σ₇))
    (h₈ : CodeGen.builderSetTerminator σ₇ (.cbranch (.reg cmpId) body_bb end_bb) = .ok (t₂, σ₈))
    (h₉ : CodeGen.position_at_start σ₈ body_bb = .ok σ₉)
    (h₁₀ : CodeGen.run fuel σ₉ (.seq body none) = .ok (br', σ₁₀))
    (h₁₁ : σ₁₀.builder = some bld)
    (h₁₂ : bget σ₁₀.blocks bld.blockId = some blk)
    (h₁₃ : blk.is_terminated = true) :
    CodeGen.run (fuel + 1) σ (.one (Node.While condition body))
      = .error .assertTerminated := by
  simp only [CodeGen.run, h₁, h₂, h₃, h₄, h₅, h₆, h₇, h₈, h₉, h₁₀, ebind_ok]
  rw [show CodeGen.builderSetTerminator σ₁₀ (.br cond_bb) = .error .assertTerminated by
    simp [CodeGen.builderSetTerminator, h₁₁, h₁₂, h₁₃], ebind_err]

/-- Claim C9 amended, witnessed: inside a function, a `While` whose body is
a single `Return` fails with the double-termination assertion. -/
theorem claim_C9_amended_witness :
    CodeGen.run 64 CodeGen.midState
      (.one (Node.While (Node.Number 1) [Node.Return (Node.Number 2)]))
      = .error .assertTerminated :=
  claim_C9_amended 63 rfl rfl rfl rfl rfl rfl rfl rfl rfl rfl rfl rfl rfl

/-- Claim C3 (code-bug evidence): a call to a name absent from the global
function table fails with the KeyError raised by `module.get_global`
(codegen.py:76), not with the dedicated "Unknown function" condition of
codegen.py:77-78, which is unreachable because `get_global` never returns
`None`.  When the callee is present, the arguments are lowered
left-to-right (third conjunct: the head argument is lowered in the
incoming state, the tail in the resulting state) and a call instruction is
emitted whose result is the call's value (second conjunct). -/
theorem claim_C3 :
    (∀ (fuel : Nat) (σ : CodeGen.CGState) (name : String) (args : List Node),
      IR.fget σ.module.functions name = none →
      CodeGen.run (fuel + 1) σ (.one (Node.FunctionCall name args))
        = .error (.keyError name))
    ∧ (∀ (fuel : Nat) (σ σ₁ σ₂ : CodeGen.CGState) (name : String) (args : List Node)
        (callee : IR.IRFunction) (ar : CodeGen.GRes) (bld : IR.Builder)
        (vv : List IR.IRValue) (iid : Nat),
      IR.fget σ.module.functions name = some callee →
      CodeGen.run fuel σ (.arglist args []) = .ok (ar, σ₁) →
      σ₁.builder = some bld →
      ar.vs.length = callee.arity →
      CodeGen.allSome ar.vs = some vv →
      CodeGen.builderInsert σ₁ (.call name vv) = .ok (iid, σ₂) →
      CodeGen.run (fuel + 1) σ (.one (Node.FunctionCall name args))
        = .ok ({ v := some (.reg iid) }, σ₂))
    ∧ (∀ (fuel : Nat) (σ σ₁ : CodeGen.CGState) (a : Node) (rest : List Node)
        (acc : List (Option IR.IRValue)) (r : CodeGen.GRes)
        (res : Except CodeGen.CGErr (CodeGen.GRes × CodeGen.CGState)),
      CodeGen.run fuel σ (.one a) = .ok (r, σ₁) →
      CodeGen.run fuel σ₁ (.arglist rest (acc ++ [r.v])) = res →
      CodeGen.run (fuel + 1) σ (.arglist (a :: rest) acc) = res) := by
  refine ⟨?_, ?_, ?_⟩
  · intro fuel σ name args h
    simp only [CodeGen.run, h]
  · intro fuel σ σ₁ σ₂ name args callee ar bld vv iid hfg ha hb hlen hsome hbi
    simp only [CodeGen.run, hfg, ha, ebind_ok, hb, hlen, hsome, hbi]
    simp
  · intro fuel σ σ₁ a rest acc r res h1 h2
    simp only [CodeGen.run, h1, ebind_ok, h2]

/-- Claim C3, witnessed: in a mid-function state whose module holds only
`f` (arity 0), calling the absent `g` raises the KeyError, a nullary call
to the present `f` lowers to a call instruction, and an argument list is
lowered head first. -/
theorem claim_C3_witness :
    CodeGen.run 64 CodeGen.midState (.one (Node.FunctionCall "g" []))
      = .error (.keyError "g")
    ∧ CodeGen.run 64 CodeGen.midState (.one (Node.FunctionCall "f" []))
      = .ok ({ v := some (.reg 101) },
             { CodeGen.midState with
                 builder := some ⟨0, 1⟩, nextId := 102,
                 blocks := [(0, ⟨"entry", [⟨101, .call "f" []⟩]⟩)] })
    ∧ CodeGen.run 64 CodeGen.midState (.arglist [Node.Number 4] [])
      = .ok ({ vs := [some (.const (.num 4))] }, CodeGen.midState) :=
  ⟨claim_C3.1 63 CodeGen.midState "g" [] rfl,
   claim_C3.2.1 63 CodeGen.midState CodeGen.midState _ "f" [] ⟨"f", 0, [0]⟩
     { vs := [] } ⟨0, 0⟩ [] 101 rfl rfl rfl rfl rfl rfl,
   claim_C3.2.2 63 CodeGen.midState CodeGen.midState (Node.Number 4) [] []
     { v := some (.const (.num 4)) } _ rfl rfl⟩

/-- Claim C5: reading a name with no binding in the current function's
variable map fails with the dedicated "Unknown variable" condition (first
conjunct); an `Assignment` to an already-bound name allocates nothing and
leaves the variable map exactly as the right-hand side's lowering left it
— the store reuses the existing slot (second conjunct); and concretely,
lowering and running `def g() { x = n1; x = n2; return x; }` yields `n2`,
the last stored value, read back через the single slot allocated for `x`
(third conjunct). -/
theorem claim_C5 :
    (∀ (fuel : Nat) (σ : CodeGen.CGState) (name : String),
      dget σ.vars name = none →
      CodeGen.run (fuel + 1) σ (.one (Node.Variable name))
        = .error (.unknownVariable name))
    ∧ (∀ (fuel : Nat) (σ σ₂ σ₃ : CodeGen.CGState) (name : String) (value : Node)
        (s s' iid : Nat) (vr : CodeGen.GRes) (bld : IR.Builder) (vv : IR.IRValue),
      dget σ.vars name = some s →
      CodeGen.run fuel σ (.one value) = .ok (vr, σ₂) →
      vr.v = some vv →
      dget σ₂.vars name = some s' →
      σ₂.builder = some bld →
      CodeGen.builderInsert σ₂ (.store vv s') = .ok (iid, σ₃) →
      CodeGen.run (fuel + 1) σ (.one (Node.Assignment name value))
          = .ok ({ v := some vv }, σ₃)
        ∧ σ₃.vars = σ₂.vars)
    ∧ (∀ n₁ n₂ : ℚ, ∃ m σ,
        CodeGen.create_ir 64 CodeGen.initState (c5ast n₁ n₂) = .ok (m, σ)
        ∧ Exec.runFunction σ "g" [] 30 = some (some (.num n₂))) := by
  refine ⟨?_, ?_, ?_⟩
  · intro fuel σ name h
    simp only [CodeGen.run, h]
  · intro fuel σ σ₂ σ₃ name value s s' iid vr bld vv h₀ h₁ h₂ h₃ h₄ h₅
    refine ⟨?_, (CodeGen.builderInsert_ok_inv h₅).1⟩
    simp only [CodeGen.run, h₀, h₁, h₂, h₃, h₄, h₅, epure, ebind_ok]
  · intro n₁ n₂
    exact ⟨_, _, rfl, rfl⟩

/-- Claim C5, witnessed: in a mid-function state, reading the unbound `u`
fails with the dedicated condition; re-assigning the bound `w` reuses its
slot without touching the variable map; and the two-stores-then-load
function returns the last stored value. -/
theorem claim_C5_witness :
    CodeGen.run 64 CodeGen.midState (.one (Node.Variable "u"))
      = .error (.unknownVariable "u")
    ∧ (CodeGen.run 64 CodeGen.midState (.one (Node.Assignment "w" (Node.Number 8)))
        = .ok ({ v := some (.const (.num 8)) },
               { CodeGen.midState with
                   builder := some ⟨0, 1⟩, nextId := 102,
                   blocks := [(0, ⟨"entry", [⟨101, .store (.const (.num 8)) 100⟩]⟩)] })
      ∧ ({ CodeGen.midState with
             builder := some ⟨0, 1⟩, nextId := 102,
             blocks := [(0, ⟨"entry", [⟨101, .store (.const (.num 8)) 100⟩]⟩)] }
           : CodeGen.CGState).vars = CodeGen.midState.vars)
    ∧ (∃ m σ, CodeGen.create_ir 64 CodeGen.initState (c5ast 7 9) = .ok (m, σ)
        ∧ Exec.runFunction σ "g" [] 30 = some (some (.num 9))) :=
  ⟨claim_C5.1 63 CodeGen.midState "u" rfl,
   claim_C5.2.1 63 CodeGen.midState CodeGen.midState _ "w" (Node.Number 8) 100 100 101
     { v := some (.const (.num 8)) } ⟨0, 0⟩ (.const (.num 8)) rfl rfl rfl rfl rfl rfl,
   claim_C5.2.2 7 9⟩

/-- Claim C6: the lowering of a comparison `BinaryOp` (`<`, `>`, `==`)
emits an ordered `fcmp` followed by a `uitofp` and returns the `uitofp`
result (second conjunct); and for every pair of operand values — NaN
included — the semantic value of that conversion of an ordered-comparison
bit is exactly 0.0 or exactly 1.0 (first conjunct). -/
theorem claim_C6 :
    (∀ (pred : String) (x y : FVal),
      Exec.uitofp_sem (Exec.fcmp_ordered_sem pred x y) = FVal.num 0
        ∨ Exec.uitofp_sem (Exec.fcmp_ordered_sem pred x y) = FVal.num 1)
    ∧ (∀ (fuel : Nat) (σ σ₁ σ₂ σ₃ σ₄ : CodeGen.CGState) (l r : Node) (op : String)
        (lr rr : CodeGen.GRes) (lv rv : IR.IRValue) (bld : IR.Builder) (cid uid : Nat),
      ["<", ">", "=="].contains op = true →
      CodeGen.run fuel σ (.one l) = .ok (lr, σ₁) →
      CodeGen.run fuel σ₁ (.one r) = .ok (rr, σ₂) →
      lr.v = some lv → rr.v = some rv →
      σ₂.builder = some bld →
      CodeGen.builderInsert σ₂ (.fcmp_ordered (CodeGen.cmpMap op) lv rv) = .ok (cid, σ₃) →
      CodeGen.builderInsert σ₃ (.uitofp (.reg cid)) = .ok (uid, σ₄) →
      CodeGen.run (fuel + 1) σ (.one (Node.BinaryOp l op r))
        = .ok ({ v := some (.reg uid) }, σ₄)) := by
  constructor
  · intro pred x y
    cases hb : Exec.fcmp_ordered_sem pred x y with
    | false => left; simp [Exec.uitofp_sem]
    | true => right; simp [Exec.uitofp_sem]
  · intro fuel σ σ₁ σ₂ σ₃ σ₄ l r op lr rr lv rv bld cid uid hop h₁ h₂ h₃ h₄ h₅ h₆ h₇
    have h8 : op ∈ (["<", ">", "=="] : List String) := by
      simp only [List.contains] at hop
      exact List.elem_iff.mp hop
    fin_cases h8 <;>
      simp [CodeGen.run, h₁, h₂, h₃, h₄, h₅, h₆, h₇, CodeGen.emitComparison,
        ebind_ok, ebind_err]

/-- Claim C6, witnessed: the comparison emission applied in a concrete
mid-function state for `3 < 4`, and the 0/1 range fact applied at a NaN
operand. -/
theorem claim_C6_witness :
    (Exec.uitofp_sem (Exec.fcmp_ordered_sem "<" FVal.nan (FVal.num 0)) = FVal.num 0
      ∨ Exec.uitofp_sem (Exec.fcmp_ordered_sem "<" FVal.nan (FVal.num 0)) = FVal.num 1)
    ∧ CodeGen.run 64 CodeGen.midState
        (.one (Node.BinaryOp (Node.Number 3) "<" (Node.Number 4)))
      = .ok ({ v := some (.reg 102) },
             { CodeGen.midState with
                 builder := some ⟨0, 2⟩, nextId := 103,
                 blocks := [(0, ⟨"entry",
                   [⟨101, .fcmp_ordered "<" (.const (.num 3)) (.const (.num 4))⟩,
                    ⟨102, .uitofp (.reg 101)⟩]⟩)] }) :=
  ⟨claim_C6.1 "<" FVal.nan (FVal.num 0),
   claim_C6.2 63 CodeGen.midState CodeGen.midState CodeGen.midState _ _
     (Node.Number 3) (Node.Number 4) "<"
     { v := some (.const (.num 3)) } { v := some (.const (.num 4)) }
     (.const (.num 3)) (.const (.num 4)) ⟨0, 0⟩ 101 102
     rfl rfl rfl rfl rfl rfl rfl rfl⟩

/-- Claim C7: `functionDef_prologue` — everything codegen.py:84-114 does
before the body loop — registers the function under its name both in the
module's globals and in `self.functions` (first conjunct: any state in
which a `FunctionDef` body is lowered already resolves the name), and a
concrete self-recursive function lowers without any unknown-function
failure, its entry block containing the resolved self-call (second
conjunct). -/
theorem claim_C7 :
    (∀ (σ σp : CodeGen.CGState) (name : String) (args : List String) (ebid : Nat),
      CodeGen.functionDef_prologue σ name args = .ok (ebid, σp) →
      (IR.fget σp.module.functions name).isSome = true
        ∧ σp.functions.contains name = true)
    ∧ (∃ σ, CodeGen.generate_code 64 CodeGen.initState
          (Node.FunctionDef "fact" ["n"]
            [Node.Return (Node.FunctionCall "fact" [Node.Variable "n"])])
        = .ok (some (IR.IRValue.funcref "fact"), σ)
      ∧ (bget σ.blocks 0).map (fun b => b.instrs.map (fun i => i.op))
        = some [.alloca "n", .store (.argval "fact" 0) 1, .load 1,
                .call "fact" [.reg 3], .ret (some (.reg 4))]) := by
  constructor
  · intro σ σp name args ebid h
    unfold CodeGen.functionDef_prologue at h
    cases hfg : IR.fget σ.module.functions name with
    | some f => simp only [hfg] at h; exact Except.noConfusion h
    | none =>
      simp only [hfg, CodeGen.append_basic_block, CodeGen.freshId] at h
      obtain ⟨σ₄, h1, h2⟩ := except_bind_ok h
      obtain ⟨-, hm4, hf4, -, -⟩ := CodeGen.bindArgAllocas_ok_inv args _ _ h1
      cases hbe : bget σ₄.blocks _ with
      | none => rw [hbe] at h2; exact Except.noConfusion h2
      | some eb =>
        rw [hbe] at h2
        obtain ⟨σ₆, h3, h4⟩ := except_bind_ok h2
        obtain ⟨-, -, hm6, hf6⟩ := CodeGen.storeArgs_ok_inv args _ _ _ _ h3
        simp only [Except.ok.injEq, Prod.mk.injEq] at h4
        obtain ⟨-, h5⟩ := h4
        subst h5
        constructor
        · have hreg : IR.fget (σ.module.functions ++ [⟨name, args.length, []⟩]) name
              = some ⟨name, args.length, []⟩ :=
            fget_append_right _ _ hfg
          have hupd := fget_fupdate_self
            (σ.module.functions ++ [⟨name, args.length, []⟩]) name
            (fun f => { f with blockIds := f.blockIds ++ [σ.nextId] })
            ⟨name, args.length, []⟩ (fun _ => rfl) hreg
          simp only [hm6, hm4, hupd]
          rfl
        · simp only [hf6, hf4]
          show List.elem name (σ.functions ++ [name]) = true
          exact List.elem_iff.mpr (by simp)
  · exact ⟨_, rfl, rfl⟩

/-- Claim C7, witnessed: the prologue applied to the initial state for
`def g(x)` registers `g` before any body statement would be lowered. -/
theorem claim_C7_witness :
    ∃ p, CodeGen.functionDef_prologue CodeGen.initState "g" ["x"] = .ok p
      ∧ (IR.fget p.2.module.functions "g").isSome = true
      ∧ p.2.functions.contains "g" = true :=
  ⟨_, rfl, (claim_C7.1 CodeGen.initState _ "g" ["x"] _ rfl).1,
    (claim_C7.1 CodeGen.initState _ "g" ["x"] _ rfl).2⟩

/-- Claim C8: whenever lowering a `FunctionDef` completes, the enclosing
context — builder (insertion point), current function and variable map —
is restored exactly to its pre-lowering value (first conjunct; so no
variable bound inside the nested function remains visible), and the
prologue starts the nested function from a fresh variable map in which no
name outside the parameter list is bound (second conjunct). -/
theorem claim_C8 :
    (∀ (fuel : Nat) (σ σ' : CodeGen.CGState) (name : String) (args : List String)
        (body : List Node) (res : CodeGen.GRes),
      CodeGen.run (fuel + 1) σ (.one (Node.FunctionDef name args body)) = .ok (res, σ') →
      σ'.builder = σ.builder ∧ σ'.func = σ.func ∧ σ'.vars = σ.vars)
    ∧ (∀ (σ σp : CodeGen.CGState) (name : String) (args : List String) (ebid : Nat),
      CodeGen.functionDef_prologue σ name args = .ok (ebid, σp) →
      ∀ y, y ∉ args → dget σp.vars y = none) := by
  constructor
  · intro fuel σ σ' name args body res h
    simp only [CodeGen.run] at h
    obtain ⟨⟨ebid, σp⟩, h1, h2⟩ := except_bind_ok h
    obtain ⟨⟨rb, σb⟩, h3, h4⟩ := except_bind_ok h2
    obtain ⟨σe, h5, h6⟩ := except_bind_ok h4
    simp only [Except.ok.injEq, Prod.mk.injEq] at h6
    obtain ⟨-, h7⟩ := h6
    subst h7
    exact ⟨rfl, rfl, rfl⟩
  · intro σ σp name args ebid h y hy
    unfold CodeGen.functionDef_prologue at h
    cases hfg : IR.fget σ.module.functions name with
    | some f => simp only [hfg] at h; exact Except.noConfusion h
    | none =>
      simp only [hfg, CodeGen.append_basic_block, CodeGen.freshId] at h
      obtain ⟨σ₄, h1, h2⟩ := except_bind_ok h
      obtain ⟨-, -, -, -, hv4⟩ := CodeGen.bindArgAllocas_ok_inv args _ _ h1
      cases hbe : bget σ₄.blocks _ with
      | none => rw [hbe] at h2; exact Except.noConfusion h2
      | some eb =>
        rw [hbe] at h2
        obtain ⟨σ₆, h3, h4⟩ := except_bind_ok h2
        obtain ⟨hv6, -, -, -⟩ := CodeGen.storeArgs_ok_inv args _ _ _ _ h3
        simp only [Except.ok.injEq, Prod.mk.injEq] at h4
        obtain ⟨-, h5⟩ := h4
        subst h5
        rw [hv6]
        show dget σ₄.vars y = none
        rw [hv4 y hy]
        rfl

/-- Claim C8, witnessed: lowering `def h() { 1; }` from a mid-function
state restores that state's builder, current function and variable map,
and the prologue for `h` binds none of the enclosing names. -/
theorem claim_C8_witness :
    (∃ res σ', CodeGen.run 64 CodeGen.midState (.one (Node.FunctionDef "h" [] [Node.Number 1]))
        = .ok (res, σ')
      ∧ σ'.builder = CodeGen.midState.builder
      ∧ σ'.func = CodeGen.midState.func
      ∧ σ'.vars = CodeGen.midState.vars)
    ∧ (∃ p, CodeGen.functionDef_prologue CodeGen.midState "h" [] = .ok p
        ∧ dget p.2.vars "w" = none) :=
  ⟨⟨_, _, rfl, (claim_C8.1 63 CodeGen.midState _ "h" [] [Node.Number 1] _ rfl).1,
      (claim_C8.1 63 CodeGen.midState _ "h" [] [Node.Number 1] _ rfl).2.1,
      (claim_C8.1 63 CodeGen.midState _ "h" [] [Node.Number 1] _ rfl).2.2⟩,
   ⟨_, rfl, claim_C8.2 CodeGen.midState _ "h" [] _ rfl "w" (by simp)⟩⟩

/-- Claim C2: `If` lowering creates then/else/merge blocks, branches on the
condition compared (`!=`, ordered) against 0.0, and — whenever every stage
the source performs succeeds, recorded here as hypotheses — yields a value
exactly when both branch bodies produced a final value.  In that case the
result is a phi inserted at the START of the merge block with incomings
`(then-value, then-block)` and `(else-value, else-block)` (visible in the
resulting state in the first conclusion); when either branch value is
missing the construct yields no value and lowering still succeeds (second
conclusion).  The second half is value-level: the `!=`-with-0.0 comparison
is exactly the nonzero truth test, and running the lowered
if-as-expression returns the then-value under a nonzero condition and the
else-value under a zero one. -/
theorem claim_C2 :
    (∀ (fuel : Nat) (σ : CodeGen.CGState) (condition : Node) (then_body : List Node)
        (else_body : Option (List Node))
        {σ₁ σ₂ σ₃ σ₄ σ₅ σ₆ σ₇ σ₈ σ₉ σ₁₀ σ₁₁ σ₁₂ σ₁₃ : CodeGen.CGState}
        {cr tr er : CodeGen.GRes} {cmpId then_bb else_bb merge_bb t₂ : Nat}
        {mblk : IR.Block},
      CodeGen.run fuel σ (.one condition) = .ok (cr, σ₁) →
      CodeGen.truthyCmp σ₁ cr.v = .ok (cmpId, σ₂) →
      CodeGen.appendOnCurrentFunc σ₂ "then" = .ok (then_bb, σ₃) →
      CodeGen.appendOnCurrentFunc σ₃ "else" = .ok (else_bb, σ₄) →
      CodeGen.appendOnCurrentFunc σ₄ "ifcont" = .ok (merge_bb, σ₅) →
      CodeGen.builderSetTerminator σ₅ (.cbranch (.reg cmpId) then_bb else_bb)
        = .ok (t₂, σ₆) →
      CodeGen.position_at_start σ₆ then_bb = .ok σ₇ →
      CodeGen.run fuel σ₇ (.seq then_body none) = .ok (tr, σ₈) →
      CodeGen.branchIfUnterminated σ₈ then_bb merge_bb = .ok σ₉ →
      CodeGen.position_at_start σ₉ else_bb = .ok σ₁₀ →
      CodeGen.run fuel σ₁₀ (.seq (else_body.getD []) none) = .ok (er, σ₁₁) →
      CodeGen.branchIfUnterminated σ₁₁ else_bb merge_bb = .ok σ₁₂ →
      CodeGen.position_at_start σ₁₂ merge_bb = .ok σ₁₃ →
      bget σ₁₃.blocks merge_bb = some mblk →
      ((∀ tv ev, tr.v = some tv → er.v = some ev →
          CodeGen.run (fuel + 1) σ (.one (Node.If condition then_body else_body))
            = .ok ({ v := some (.reg σ₁₃.nextId) },
                   { σ₁₃ with
                       blocks := bset σ₁₃.blocks merge_bb
                         ⟨mblk.name,
                          ⟨σ₁₃.nextId, .phi [(tv, then_bb), (ev, else_bb)]⟩ :: mblk.instrs⟩,
                       builder := some ⟨merge_bb, 1⟩,
                       nextId := σ₁₃.nextId + 1 }))
        ∧ ((tr.v = none ∨ er.v = none) →
          CodeGen.run (fuel + 1) σ (.one (Node.If condition then_body else_body))
            = .ok ({ v := none }, σ₁₃))))
    ∧ (∀ c : ℚ, Exec.fcmp_ordered_sem "!=" (.num c) (.num 0) = decide (c ≠ 0))
    ∧ (∀ a b : ℚ, ∃ m σ,
        CodeGen.create_ir 64 CodeGen.initState (c2ast 1 a b) = .ok (m, σ)
        ∧ Exec.runFunction σ "f" [] 30 = some (some (.num a)))
    ∧ (∀ a b : ℚ, ∃ m σ,
        CodeGen.create_ir 64 CodeGen.initState (c2ast 0 a b) = .ok (m, σ)
        ∧ Exec.runFunction σ "f" [] 30 = some (some (.num b))) := by
  refine ⟨?_, ?_, ?_, ?_⟩
  · intro fuel σ condition then_body else_body σ₁ σ₂ σ₃ σ₄ σ₅ σ₆ σ₇ σ₈ σ₉ σ₁₀ σ₁₁ σ₁₂ σ₁₃
      cr tr er cmpId then_bb else_bb merge_bb t₂ mblk
      h₁ h₂ h₃ h₄ h₅ h₆ h₇ h₈ h₉ h₁₀ h₁₁ h₁₂ h₁₃ hm
    have h13' := CodeGen.position_at_start_ok_inv h₁₃
    subst h13'
    constructor
    · intro tv ev htv hev
      simp only [CodeGen.run, h₁, h₂, h₃, h₄, h₅, h₆, h₇, h₈, h₉, h₁₀, h₁₁, h₁₂, h₁₃,
        htv, hev, ebind_ok]
      simp only [CodeGen.builderInsert, CodeGen.freshId] at hm ⊢
      simp only [hm, CodeGen.insertAt, ebind_ok]
    · intro hno
      rcases hno with hno | hno
      · simp only [CodeGen.run, h₁, h₂, h₃, h₄, h₅, h₆, h₇, h₈, h₉, h₁₀, h₁₁, h₁₂, h₁₃,
          hno, ebind_ok]
      · cases htr : tr.v with
        | none =>
          simp only [CodeGen.run, h₁, h₂, h₃, h₄, h₅, h₆, h₇, h₈, h₉, h₁₀, h₁₁, h₁₂, h₁₃,
            htr, ebind_ok]
        | some tv =>
          simp only [CodeGen.run, h₁, h₂, h₃, h₄, h₅, h₆, h₇, h₈, h₉, h₁₀, h₁₁, h₁₂, h₁₃,
            htr, hno, ebind_ok]
  · intro c
    simp [Exec.fcmp_ordered_sem]
  · intro a b
    exact ⟨_, _, rfl, rfl⟩
  · intro a b
    exact ⟨_, _, rfl, rfl⟩

/-- Claim C2, witnessed: a concrete `if (1) { 2; } else { 3; }` in a
mid-function state yields a phi-backed value; a branch pair with a
valueless else (a nested `while` as its only statement) yields no value
without failing; and the value selection at runtime: nonzero condition
gives the then-value, zero gives the else-value. -/
theorem claim_C2_witness :
    (∃ σfin, CodeGen.run 64 CodeGen.midState
        (.one (Node.If (Node.Number 1) [Node.Number 2] (some [Node.Number 3])))
        = .ok ({ v := some (.reg 108) }, σfin))
    ∧ (∃ σfin, CodeGen.run 64 CodeGen.midState
        (.one (Node.If (Node.Number 1) [Node.Number 2]
          (some [Node.While (Node.Number 1) []])))
        = .ok ({ v := none }, σfin))
    ∧ Exec.fcmp_ordered_sem "!=" (.num 5) (.num 0) = decide ((5 : ℚ) ≠ 0)
    ∧ (∃ m σ, CodeGen.create_ir 64 CodeGen.initState (c2ast 1 11 22) = .ok (m, σ)
        ∧ Exec.runFunction σ "f" [] 30 = some (some (.num 11)))
    ∧ (∃ m σ, CodeGen.create_ir 64 CodeGen.initState (c2ast 0 11 22) = .ok (m, σ)
        ∧ Exec.runFunction σ "f" [] 30 = some (some (.num 22))) :=
  ⟨⟨_, (claim_C2.1 63 CodeGen.midState (Node.Number 1) [Node.Number 2]
        (some [Node.Number 3]) rfl rfl rfl rfl rfl rfl rfl rfl rfl rfl rfl rfl rfl rfl).1
      (.const (.num 2)) (.const (.num 3)) rfl rfl⟩,
   ⟨_, (claim_C2.1 63 CodeGen.midState (Node.Number 1) [Node.Number 2]
        (some [Node.While (Node.Number 1) []])
        rfl rfl rfl rfl rfl rfl rfl rfl rfl rfl rfl rfl rfl rfl).2 (Or.inr rfl)⟩,
   claim_C2.2.1 5,
   claim_C2.2.2.1 11 22,
   claim_C2.2.2.2 11 22⟩

end ToyLang
